import Mathlib

/-!
Verification of the cyber_range scenario pipeline (validator, planner,
provisioner) against its natural-language specification.

The Python sources under `src/` are shallowly embedded below:
dictionaries become structures with `Option` fields, Python dicts that are
iterated in insertion order become association lists, and the emitted
operation/error streams become explicit lists.  Python truthiness on
strings (`if x:` where `x` is `None` or a string) is modelled by
`strTruthy`, and on integers by `intTruthy`.
-/

namespace CyberRange

/-- Python truthiness of an optional string: `None` and `""` are falsy. -/
def strTruthy : Option String → Bool
  | none => false
  | some s => !(s == "")

/-- Python truthiness of an optional int: `None` and `0` are falsy. -/
def intTruthy : Option Int → Bool
  | none => false
  | some n => !(n == 0)

/-- Python `x or d` for an optional string `x` and default `d`. -/
def strOr (o : Option String) (d : String) : String :=
  match o with
  | none => d
  | some s => if s == "" then d else s

/-- Character-list lexicographic comparison by code point (Python `<`
on strings; kernel-reducible, unlike `String.ltb`). -/
def charListLt : List Char → List Char → Bool
  | [], [] => false
  | [], _ :: _ => true
  | _ :: _, [] => false
  | a :: as, b :: bs =>
      a.toNat < b.toNat || (a.toNat == b.toNat && charListLt as bs)

/-- Python string `<` (lexicographic by code point). -/
def pyStrLt (a b : String) : Bool := charListLt a.data b.data

/-- Python `str.lower()` (ASCII letters; kernel-reducible form). -/
def pyLower (s : String) : String := ⟨s.data.map Char.toLower⟩

/-- First-occurrence deduplication; models iterating a Python `set`
built from a list (one canonical iteration order). -/
def dedupFirst (l : List String) : List String :=
  l.foldl (fun acc i => if i ∈ acc then acc else acc ++ [i]) []

/-- Association-list lookup (first match).  Our insertion discipline keeps
keys unique, matching Python `dict` access. -/
def alookup {β : Type} (m : List (String × β)) (k : String) : Option β :=
  (m.find? (fun p => p.1 == k)).map (·.2)

/-- Python `d[k] = v`: replace the value in place if the key is present
(dicts keep the original insertion position), else append. -/
def ainsert {β : Type} (m : List (String × β)) (k : String) (v : β) :
    List (String × β) :=
  if (m.find? (fun p => p.1 == k)).isSome then
    m.map (fun p => if p.1 == k then (k, v) else p)
  else m ++ [(k, v)]

/-- Update the value at a key with `f` when present (no-op otherwise). -/
def amodify {β : Type} (m : List (String × β)) (k : String) (f : β → β) :
    List (String × β) :=
  m.map (fun p => if p.1 == k then (p.1, f p.2) else p)

/-! ## ScenarioDoc data model (the parsed JSON document) -/

structure NetRef where
  network_id : Option String
  ip_address : Option String
deriving Repr, DecidableEq

structure SPort where
  internal : Option Int
  external : Option Int
  protocol : Option String
deriving Repr, DecidableEq

structure Service where
  id : Option String
  ports : List SPort
deriving Repr, DecidableEq

structure Resources where
  cpu_limit : Option String
  memory_limit : Option String
  disk_limit : Option String
deriving Repr, DecidableEq

/-- Empty resources dict (`h.get("resources", {}) or {}`). -/
def Resources.empty : Resources := ⟨none, none, none⟩

structure HealthcheckCfg where
  test : Option String
  interval : Option String
  timeout : Option String
  retries : Option String
  start_period : Option String
deriving Repr, DecidableEq

/-- A volume entry: either a `{source, target}` record or a `"src:dst"`
string. -/
inductive Volume where
  | vdict (source target : Option String)
  | vstr (s : String)
deriving Repr, DecidableEq

structure Host where
  id : Option String
  type : Option String
  base_image : Option String
  networks : List NetRef
  services : List String
  depends_on : List String
  resources : Option Resources
  env : List (String × String)
  volumes : List Volume
  healthcheck : Option HealthcheckCfg
  restart_policy : Option String
  flags : List String
  vulnerabilities : List String
deriving Repr, DecidableEq

structure Network where
  id : Option String
  subnet : Option String
deriving Repr, DecidableEq

structure PlacementDetails where
  table : Option String
  query : Option String
  path : Option String
deriving Repr, DecidableEq

def PlacementDetails.empty : PlacementDetails := ⟨none, none, none⟩

structure Placement where
  type : Option String
  host_id : Option String
  path : Option String
  «variable» : Option String
  details : Option PlacementDetails
deriving Repr, DecidableEq

def Placement.empty : Placement := ⟨none, none, none, none, none⟩

structure FlagDef where
  id : Option String
  value : Option String
  placement : Option Placement
deriving Repr, DecidableEq

structure Vulnerability where
  id : Option String
deriving Repr, DecidableEq

structure ScenarioDoc where
  networks : List Network
  hosts : List Host
  services : List Service
  flags : List FlagDef
  vulnerabilities : List Vulnerability
deriving Repr, DecidableEq

/-! ## Planner (src/planner/planner.py) -/

structure TopoHost where
  host_id : String
  ip : Option String
deriving Repr, DecidableEq

structure TopoEntry where
  subnet : Option String
  hosts : List TopoHost
deriving Repr, DecidableEq

structure PortAlloc where
  internal : Option Int
  external : Option Int
  protocol : String
  service_id : String
deriving Repr, DecidableEq

structure HostAlloc where
  cpu_limit : Option String
  memory_limit : Option String
  disk_limit : Option String
  ports : List PortAlloc
deriving Repr, DecidableEq

structure PlanResult where
  ordered_components : List String
  network_topology : List (String × TopoEntry)
  resource_allocation : List (String × HostAlloc)
  errors : List String
  warnings : List String
deriving Repr, DecidableEq

/-- Ids of networks whose `id` field is truthy (the keys of
`network_by_id`). -/
def networkIds (networks : List Network) : List String :=
  networks.filterMap (fun n => if strTruthy n.id then n.id else none)

/-- `service_by_id` lookup: dict comprehension keeps the LAST service
with a given (truthy) id. -/
def svcLookup (services : List Service) (i : String) : Option Service :=
  services.reverse.find? (fun s => strTruthy s.id && s.id == some i)

/-- First loop of `plan_scenario`: build
`network_topology[nid] = {subnet, hosts: []}` and `ip_usage[nid] = set()`;
a network with a falsy id yields an error instead. -/
def stepNetwork
    (st : List (String × TopoEntry) × List (String × List String) × List String)
    (n : Network) :
    List (String × TopoEntry) × List (String × List String) × List String :=
  let (topo, usage, errs) := st
  match n.id, strTruthy n.id with
  | some nid, true =>
      (ainsert topo nid ⟨n.subnet, []⟩, ainsert usage nid [], errs)
  | _, _ => (topo, usage, errs ++ ["Network missing 'id'"])

def buildNetworks (networks : List Network) :
    List (String × TopoEntry) × List (String × List String) × List String :=
  networks.foldl stepNetwork ([], [], [])

/-- Process one `net_ref` of host `hid` (inner loop of the second pass). -/
def stepNetRef (nets : List Network) (hid : String)
    (st : List (String × TopoEntry) × List (String × List String) × List String)
    (r : NetRef) :
    List (String × TopoEntry) × List (String × List String) × List String :=
  let (topo, usage, errs) := st
  match r.network_id, strTruthy r.network_id with
  | some nid, true =>
      if nid ∈ networkIds nets then
        -- IP conflict detection on same network; the host is appended to
        -- the topology entry even when its IP conflicts (source line 89).
        let st' :=
          match r.ip_address, strTruthy r.ip_address with
          | some ip, true =>
              if ip ∈ (alookup usage nid).getD [] then
                (usage, errs ++ ["IP conflict on network '" ++ nid ++ "': " ++ ip
                                  ++ " already in use"])
              else (amodify usage nid (fun ips => ips ++ [ip]), errs)
          | _, _ => (usage, errs)
        (amodify topo nid (fun t => ⟨t.subnet, t.hosts ++ [⟨hid, r.ip_address⟩]⟩),
          st'.1, st'.2)
      else
        (topo, usage,
          errs ++ ["Host '" ++ hid ++ "' references unknown network '" ++ nid ++ "'"])
  | _, _ =>
      (topo, usage,
        errs ++ ["Host '" ++ hid ++ "' has network entry without 'network_id'"])

/-- Second loop of `plan_scenario`: validate host network refs and
populate the topology. -/
def populateTopology (nets : List Network) (hosts : List Host)
    (topo : List (String × TopoEntry)) (usage : List (String × List String)) :
    List (String × TopoEntry) × List (String × List String) × List String :=
  hosts.foldl
    (fun st h =>
      match h.id, strTruthy h.id with
      | some hid, true => h.networks.foldl (stepNetRef nets hid) st
      | _, _ => (st.1, st.2.1, st.2.2 ++ ["Host missing 'id'"]))
    (topo, usage, [])

/-- The exact port-conflict error message emitted by the planner. -/
def portConflictMsg (protocol : String) (external : Int)
    (prev hid svcId : String) : String :=
  "External port conflict: " ++ protocol ++ "/" ++ toString external
    ++ " used by '" ++ prev ++ "' and host '" ++ hid
    ++ "' (service '" ++ svcId ++ "')"

/-- State of the resource-allocation pass: external-port usage map,
errors, warnings, and the allocation table. -/
structure AllocState where
  usage : List ((Int × String) × String)
  errs : List String
  warns : List String
  alloc : List (String × HostAlloc)
deriving Repr, DecidableEq

/-- Lookup in the `(external, protocol) → owner` map. -/
def portLookup (usage : List ((Int × String) × String)) (k : Int × String) :
    Option String :=
  (usage.find? (fun p => p.1 == k)).map (·.2)

/-- Process one port of service `svcId` on host `hid`: track external
port conflicts and accumulate the port record. -/
def stepPort (hid svcId : String) (st : AllocState × List PortAlloc) (p : SPort) :
    AllocState × List PortAlloc :=
  let (s, ports) := st
  let protocol := pyLower (strOr p.protocol "tcp")
  let s' :=
    match p.external with
    | some ext =>
        match portLookup s.usage (ext, protocol) with
        | some prev =>
            { s with errs := s.errs ++ [portConflictMsg protocol ext prev hid svcId] }
        | none =>
            { s with usage := s.usage ++ [((ext, protocol), hid ++ ":" ++ svcId)] }
    | none => s
  (s', ports ++ [⟨p.internal, p.external, protocol, svcId⟩])

/-- Process one service reference of host `hid`. -/
def stepService (services : List Service) (hid : String)
    (st : AllocState × List PortAlloc) (svcId : String) :
    AllocState × List PortAlloc :=
  match svcLookup services svcId with
  | none =>
      ({ st.1 with errs := st.1.errs ++
          ["Host '" ++ hid ++ "' references undefined service '" ++ svcId ++ "'"] },
        st.2)
  | some svc => svc.ports.foldl (stepPort hid svcId) st

/-- Process one host in the resource-allocation pass. -/
def stepHostAlloc (services : List Service) (s : AllocState) (h : Host) :
    AllocState :=
  match h.id, strTruthy h.id with
  | some hid, true =>
      let resources := h.resources.getD Resources.empty
      let (s', ports) := h.services.foldl (stepService services hid) (s, [])
      let warns' :=
        if h.type == some "attacker" then s'.warns
        else
          (if !(strTruthy resources.cpu_limit) then
            s'.warns ++ ["Host '" ++ hid ++ "' missing cpu_limit"] else s'.warns)
          ++ (if !(strTruthy resources.memory_limit) then
            ["Host '" ++ hid ++ "' missing memory_limit"] else [])
      { s' with
        warns := warns',
        alloc := ainsert s'.alloc hid
          ⟨resources.cpu_limit, resources.memory_limit, resources.disk_limit, ports⟩ }
  | _, _ => s  -- missing id: already recorded by the topology pass

/-- Third loop of `plan_scenario`: resource allocation and external-port
conflict detection. -/
def resourceAllocation (hosts : List Host) (services : List Service) : AllocState :=
  hosts.foldl (stepHostAlloc services) ⟨[], [], [], []⟩

/-- The set of host ids (`{h.get("id") for h in hosts if h.get("id")}`),
in first-occurrence order. -/
def hostIdsOf (hosts : List Host) : List String :=
  dedupFirst (hosts.filterMap (fun h => if strTruthy h.id then h.id else none))

/-- Process one `depends_on` entry of host `hid`: record the edge
`dep → hid` once (the adjacency sets deduplicate), or report an unknown
dependency. -/
def stepDep (hostIds : List String) (hid : String)
    (st : List (String × List String) × List (String × Int) × List String)
    (dep : String) :
    List (String × List String) × List (String × Int) × List String :=
  let (adj, indeg, errs) := st
  if dep ∈ hostIds then
    if hid ∈ (alookup adj dep).getD [] then (adj, indeg, errs)
    else
      (amodify adj dep (fun l => l ++ [hid]),
        amodify indeg hid (fun d => d + 1), errs)
  else
    (adj, indeg,
      errs ++ ["Host '" ++ hid ++ "' depends_on unknown host '" ++ dep ++ "'"])

/-- Process one host's `depends_on` list. -/
def stepHostDeps (hostIds : List String)
    (st : List (String × List String) × List (String × Int) × List String)
    (h : Host) :
    List (String × List String) × List (String × Int) × List String :=
  match h.id, strTruthy h.id with
  | some hid, true => h.depends_on.foldl (stepDep hostIds hid) st
  | _, _ => st

/-- Build adjacency (dep → dependents) and in-degrees from `depends_on`,
collecting unknown-dependency errors. -/
def buildDeps (hosts : List Host) (hostIds : List String) :
    List (String × List String) × List (String × Int) × List String :=
  hosts.foldl (stepHostDeps hostIds)
    (hostIds.map (fun i => (i, [])), hostIds.map (fun i => (i, (0 : Int))), [])

/-- Decrement the in-degree of `nxt`; enqueue it when the new value is 0. -/
def kahnVisit (st : List (String × Int) × List String) (nxt : String) :
    List (String × Int) × List String :=
  let (indeg, queue) := st
  let indeg' := amodify indeg nxt (fun d => d - 1)
  if alookup indeg' nxt == some 0 then (indeg', queue ++ [nxt])
  else (indeg', queue)

/-- The Kahn BFS loop.  `fuel` only bounds the iteration count for
termination; each node is enqueued at most once (proved below), so
`fuel = |hostIds| + 1` makes the loop end with an empty queue exactly
as the Python `while queue:` does. -/
def kahnLoop (adj : List (String × List String)) :
    Nat → List (String × Int) → List String → List String → List String
  | 0, _, _, order => order
  | _ + 1, _, [], order => order
  | fuel + 1, indeg, cur :: queue, order =>
      let (indeg', queue') :=
        ((alookup adj cur).getD []).foldl kahnVisit (indeg, queue)
      kahnLoop adj fuel indeg' queue' (order ++ [cur])

/-- Kahn topological sort over the host dependency graph. -/
def topoSort (hostIds : List String) (adj : List (String × List String))
    (indeg : List (String × Int)) : List String :=
  let queue := (indeg.filter (fun p => p.2 == 0)).map (·.1)
  kahnLoop adj (hostIds.length + 1) indeg queue []

/-- `type_priority` with default 1 (the `.get(t, 1)`). -/
def typePriority (t : String) : Nat :=
  match t with
  | "db" => 0 | "smb" => 0 | "ftp" => 0
  | "web" => 1 | "custom" => 1 | "victim" => 1
  | "attacker" => 2
  | _ => 1

/-- Stable insertion into a sorted list: a new element goes after all
existing elements it is not strictly smaller than (Python's stable sort). -/
def insertStable {α : Type} (lt : α → α → Bool) (x : α) : List α → List α
  | [] => [x]
  | y :: ys => if lt x y then x :: y :: ys else y :: insertStable lt x ys

/-- Stable ascending sort, the result Python's `sorted` produces. -/
def sortStable {α : Type} (lt : α → α → Bool) (l : List α) : List α :=
  l.foldl (fun acc x => insertStable lt x acc) []

/-- Lexicographic strict comparison on (priority, id) sort keys. -/
def keyLt (a b : Nat × String) : Bool :=
  a.1 < b.1 || (a.1 == b.1 && pyStrLt a.2 b.2)

/-- Sort key used to re-sort `topo_order`
(`type_priority.get(next((h.get("type") or "victim") ...), 1), hid`);
note: no `.lower()` here, unlike `host_sort_key`. -/
def topoKey (hosts : List Host) (hid : String) : Nat × String :=
  let t :=
    match hosts.find? (fun h => h.id == some hid) with
    | some h => strOr h.type "victim"
    | none => "victim"  -- unreachable: hid comes from the hosts' own ids
  (typePriority t, hid)

/-- `host_sort_key`: `((h.get("type") or "victim").lower(), h.get("id") or "")`
mapped through `type_priority`. -/
def hostSortKey (h : Host) : Nat × String :=
  (typePriority (pyLower (strOr h.type "victim")), strOr h.id "")

/-- The code's attacker test for an ordered id:
`next((h.get("type") for h in hosts if h.get("id") == hid), "") == "attacker"`. -/
def isAttackerId (hosts : List Host) (hid : String) : Bool :=
  match hosts.find? (fun h => h.id == some hid) with
  | some h => h.type == some "attacker"
  | none => false

/-- Final post-pass: move attacker ids to the end. -/
def attackerLastPass (hosts : List Host) (ordered : List String) : List String :=
  let attackers := ordered.filter (isAttackerId hosts)
  let nonAttackers := ordered.filter (fun hid => !(hid ∈ attackers))
  nonAttackers ++ attackers

/-- `any(h.get("depends_on") for h in hosts)`. -/
def anyDepsOf (s : ScenarioDoc) : Bool :=
  s.hosts.any (fun h => !h.depends_on.isEmpty)

/-- The Kahn order, computed only when some host declares dependencies. -/
def topoOrder0Of (s : ScenarioDoc) : List String :=
  if anyDepsOf s then
    topoSort (hostIdsOf s.hosts) (buildDeps s.hosts (hostIdsOf s.hosts)).1
      (buildDeps s.hosts (hostIdsOf s.hosts)).2.1
  else []

/-- Cycle detection: fewer processed nodes than hosts. -/
def cycleDetected (s : ScenarioDoc) : Bool :=
  anyDepsOf s && !((topoOrder0Of s).length == (hostIdsOf s.hosts).length)

/-- The partial order is discarded when a cycle was detected. -/
def topoOrderOf (s : ScenarioDoc) : List String :=
  if cycleDetected s then [] else topoOrder0Of s

/-- The deployment order before the attacker-last post-pass: the re-sort
of `topo_order` by (priority, id) when it is nonempty, else the
priority/id sort of the hosts themselves. -/
def orderedPre (s : ScenarioDoc) : List String :=
  if !(topoOrderOf s).isEmpty then
    sortStable (fun a b => keyLt (topoKey s.hosts a) (topoKey s.hosts b))
      (topoOrderOf s)
  else
    (sortStable (fun a b => keyLt (hostSortKey a) (hostSortKey b)) s.hosts).filterMap
      (fun h => if strTruthy h.id then h.id else none)

/-- `plan_scenario` (src/planner/planner.py, lines 30-220). -/
def planScenarioDoc (s : ScenarioDoc) : PlanResult :=
  let (topo0, usage0, netErrs) := buildNetworks s.networks
  let (topo, _usage, hostNetErrs) := populateTopology s.networks s.hosts topo0 usage0
  let allocSt := resourceAllocation s.hosts s.services
  let cycleErrs :=
    if cycleDetected s then ["Cycle detected in host dependencies"] else []
  { ordered_components := attackerLastPass s.hosts (orderedPre s)
    network_topology := topo
    resource_allocation := allocSt.alloc
    errors := netErrs ++ hostNetErrs ++ allocSt.errs
      ++ (buildDeps s.hosts (hostIdsOf s.hosts)).2.2 ++ cycleErrs
    warnings := allocSt.warns }

/-! ## Provisioner (src/provisioner/provisioner.py) -/

/-- Structured `args` record of an emitted operation. -/
inductive OpArgs where
  | netCreate (id : String) (subnet : Option String)
  | netSkip (id : String) (subnet : Option String)
  | netRemove (id : String)
  | run (name : String) (image : String) (network : Option String) (ip : Option String)
      (ports : List PortAlloc) (volumes : List (String × String))
      (env : List (String × String)) (isolate : Bool) (security_opts : List String)
  | runSkip (name : String)
  | containerRemove (name : String)
  | connect (container : String) (network : Option String) (ip : Option String)
  | hcWait (container : String)
deriving Repr, DecidableEq

/-- An emitted operation: type tag, structured args, and the argv `cmd`. -/
structure Op where
  type : String
  args : OpArgs
  cmd : List String
deriving Repr, DecidableEq

/-- An executor: argv → (exit code, stdout, stderr). -/
def Exec : Type := List String → Int × String × String

/-- `_network_create_op`. -/
def networkCreateOp (network_id : String) (subnet : Option String) : Op :=
  let cmd := ["docker", "network", "create"]
    ++ (match subnet, strTruthy subnet with
        | some sn, true => ["--subnet", sn] | _, _ => [])
    ++ [network_id]
  ⟨"network.create", .netCreate network_id subnet, cmd⟩

/-- Python `str.split(":", 1)`. -/
def splitOnceColon (s : String) : Option (String × String) :=
  match s.splitOn ":" with
  | [] => none
  | [_] => none
  | a :: rest => some (a, String.intercalate ":" rest)

/-- Volume flags and the recorded `{source, target}` specs. -/
def volumeArgs (volumes : List Volume) : List String × List (String × String) :=
  volumes.foldl
    (fun (st : List String × List (String × String)) v =>
      match v with
      | .vdict src tgt =>
          match src, strTruthy src, tgt, strTruthy tgt with
          | some s, true, some t, true =>
              (st.1 ++ ["-v", s ++ ":" ++ t], st.2 ++ [(s, t)])
          | _, _, _, _ => st
      | .vstr s =>
          match splitOnceColon s with
          | some (src, tgt) =>
              (st.1 ++ ["-v", src ++ ":" ++ tgt], st.2 ++ [(src, tgt)])
          | none => st)
    ([], [])

/-- Resource-limit flags.  Python renders `--cpus` via `str(float(...))`
(and drops the flag when the parse fails); that numeric re-rendering is
not modelled — the raw string is used as the flag value. -/
def resourceArgs (resources : Resources) : List String :=
  (match resources.cpu_limit, strTruthy resources.cpu_limit with
    | some c, true => ["--cpus", c] | _, _ => [])
  ++ (match resources.memory_limit, strTruthy resources.memory_limit with
    | some m, true => ["--memory", m] | _, _ => [])
  ++ (match resources.disk_limit, strTruthy resources.disk_limit with
    | some d, true => ["--storage-opt", "size=" ++ d] | _, _ => [])

/-- Healthcheck flags (values already carried as strings). -/
def healthcheckArgs (hc : HealthcheckCfg) : List String :=
  (match hc.test, strTruthy hc.test with
    | some t, true => ["--health-cmd", t] | _, _ => [])
  ++ (match hc.interval, strTruthy hc.interval with
    | some v, true => ["--health-interval", v] | _, _ => [])
  ++ (match hc.timeout, strTruthy hc.timeout with
    | some v, true => ["--health-timeout", v] | _, _ => [])
  ++ (match hc.retries, strTruthy hc.retries with
    | some v, true => ["--health-retries", v] | _, _ => [])
  ++ (match hc.start_period, strTruthy hc.start_period with
    | some v, true => ["--health-start-period", v] | _, _ => [])

/-- `_container_run_op`.  `name` is the host's id (the caller looked the
host up by id, so `host.get("id")` is exactly that key); an absent
`network_id` would be stored as `None` in the Python argv, modelled as `""`. -/
def containerRunOp (name : String) (host : Host) (network_id : Option String)
    (ip : Option String) (ports : List PortAlloc) (isolate : Bool) : Op :=
  let image := strOr host.base_image "alpine:latest"
  let (volFlags, volSpecs) := volumeArgs host.volumes
  let envFlags := host.env.foldl (fun acc kv => acc ++ ["-e", kv.1 ++ "=" ++ kv.2]) []
  let securityOpts := if isolate then ["no-new-privileges:true"] else []
  let isolateFlags :=
    if isolate then
      (securityOpts.foldl (fun acc o => acc ++ ["--security-opt", o]) [])
        ++ ["--read-only", "--pids-limit", "256"]
    else []
  let restartFlags :=
    match host.restart_policy, strTruthy host.restart_policy with
    | some r, true => ["--restart", r] | _, _ => []
  let hcFlags := match host.healthcheck with
    | some hc => healthcheckArgs hc
    | none => []
  let portFlags :=
    ports.foldl
      (fun acc p =>
        if intTruthy p.external && intTruthy p.internal then
          acc ++ ["-p", toString ((p.external.getD 0)) ++ ":"
                    ++ toString ((p.internal.getD 0)) ++ "/" ++ p.protocol]
        else acc)
      []
  let cmd := ["docker", "run", "-d", "--name", name, "--network", network_id.getD ""]
    ++ (match ip, strTruthy ip with | some i, true => ["--ip", i] | _, _ => [])
    ++ volFlags ++ resourceArgs (host.resources.getD Resources.empty) ++ envFlags
    ++ isolateFlags ++ restartFlags ++ hcFlags ++ portFlags ++ [image]
  ⟨"container.run",
    .run name image network_id ip ports volSpecs host.env isolate securityOpts, cmd⟩

/-- `_network_connect_op`. -/
def networkConnectOp (container_name : String) (network_id : Option String)
    (ip : Option String) : Op :=
  let cmd := ["docker", "network", "connect"]
    ++ (match ip, strTruthy ip with | some i, true => ["--ip", i] | _, _ => [])
    ++ [network_id.getD "", container_name]
  ⟨"network.connect", .connect container_name network_id ip, cmd⟩

/-- `_wait_for_health_op`. -/
def waitForHealthOp (container_name : String) : Op :=
  ⟨"healthcheck.wait", .hcWait container_name, ["# wait for health check"]⟩

/-- `_network_exists`: probe only when an executor is available;
returns the probe command issued (if any) alongside the result. -/
def networkExists (executor : Option Exec) (net : String) :
    Bool × List (List String) :=
  match executor with
  | none => (false, [])
  | some e =>
      let cmd := ["docker", "network", "inspect", net]
      (decide ((e cmd).1 = 0), [cmd])

/-- `_container_exists`. -/
def containerExists (executor : Option Exec) (name : String) :
    Bool × List (List String) :=
  match executor with
  | none => (false, [])
  | some e =>
      let cmd := ["docker", "container", "inspect", name]
      (decide ((e cmd).1 = 0), [cmd])

/-- Operations and probe calls for one network-topology entry
(first emission loop, with idempotency). -/
def netEntryOps (executor : Option Exec) (idempotent_mode : String)
    (entry : String × TopoEntry) : List Op × List (List String) :=
  let (nid, info) := entry
  let (exists?, calls) := networkExists executor nid
  let ops :=
    if exists? then
      if idempotent_mode == "skip" then
        [⟨"network.create.skip", .netSkip nid info.subnet,
          ["# network exists, skipping creation"]⟩]
      else if idempotent_mode == "replace" then
        [⟨"network.remove", .netRemove nid, ["docker", "network", "rm", nid]⟩,
          networkCreateOp nid info.subnet]
      else [networkCreateOp nid info.subnet]
    else [networkCreateOp nid info.subnet]
  (ops, calls)

/-- `hosts_by_id` (dict comprehension over `scenario["hosts"]`; a later
host with the same id overrides an earlier one). -/
def hostsById (hosts : List Host) (hid : String) : Option Host :=
  hosts.reverse.find? (fun h => h.id == some hid)

/-- Operations, errors, and probe calls for one entry of
`plan.ordered_components` (second emission loop). -/
def hostEntryOps (executor : Option Exec) (idempotent_mode : String)
    (isolate : Bool) ( scenario : ScenarioDoc) (plan : PlanResult) (hid : String) :
    List Op × List String × List (List String) :=
  match hostsById scenario.hosts hid with
  | none => ([], ["Plan references unknown host '" ++ hid ++ "'"], [])
  | some host =>
      match host.networks with
      | [] => ([], ["Host '" ++ hid ++ "' has no networks in scenario"], [])
      | primary :: extras =>
          let ports := ((alookup plan.resource_allocation hid).getD
            ⟨none, none, none, []⟩).ports
          let cname := hid  -- host.get("id") = hid: the host was found by id
          let (exists?, calls) := containerExists executor cname
          let runOps :=
            if exists? then
              if idempotent_mode == "skip" then
                [⟨"container.run.skip", .runSkip cname,
                  ["# container exists, skipping run"]⟩]
              else if idempotent_mode == "replace" then
                [⟨"container.remove", .containerRemove cname,
                  ["docker", "rm", "-f", cname]⟩,
                  containerRunOp cname host primary.network_id primary.ip_address
                    ports isolate]
              else []
            else
              [containerRunOp cname host primary.network_id primary.ip_address
                ports isolate]
          let waitOps :=
            if host.healthcheck.isSome && !exists? then [waitForHealthOp cname]
            else []
          let connects := extras.map
            (fun extra => networkConnectOp hid extra.network_id extra.ip_address)
          (runOps ++ waitOps ++ connects, [], calls)

/-- Result of the emission phase of `provision`: the operation stream,
the accumulated errors, and every executor invocation made (the
existence probes — the only executor calls before execution). -/
structure EmitResult where
  ops : List Op
  errors : List String
  calls : List (List String)
deriving Repr

/-- The emission phase of `provision` (lines 184-291): networks first,
then each planned host in order.  No per-iteration output depends on
accumulated state, so the sequential loops are written as `flatMap`. -/
def provisionOps (plan : PlanResult) ( scenario : ScenarioDoc)
    (executor : Option Exec) (idempotent_mode : String) (isolate : Bool) :
    EmitResult :=
  let netResults := plan.network_topology.map (netEntryOps executor idempotent_mode)
  let hostResults := plan.ordered_components.map
    (hostEntryOps executor idempotent_mode isolate scenario plan)
  { ops := netResults.flatMap (·.1) ++ hostResults.flatMap (·.1)
    errors := hostResults.flatMap (·.2.1)
    calls := netResults.flatMap (·.2) ++ hostResults.flatMap (·.2.2) }

/-- `host_deps`: map host id → `depends_on` for each truthy host id
(`if hid:`; later duplicate ids override). -/
def hostDepsOf (hosts : List Host) : List (String × List String) :=
  hosts.foldl
    (fun m h => match h.id, strTruthy h.id with
      | some hid, true => ainsert m hid h.depends_on
      | _, _ => m)
    []

/-- `_calc_depth`: 0 for dependency-free hosts, else 1 + max over deps.
`fuel` bounds the recursion; on an acyclic graph chains are shorter than
the number of hosts, so `fuel = |hosts| + 1` suffices, while a dependency
cycle exhausts the fuel (`none`), matching Python's `RecursionError`. -/
def calcDepth (deps : List (String × List String)) : Nat → String → Option Nat
  | 0, _ => none
  | fuel + 1, hid =>
      let ds := (alookup deps hid).getD []
      if ds.isEmpty then some 0
      else
        (ds.foldl
          (fun acc d =>
            match acc, calcDepth deps fuel d with
            | some m, some v => some (max m v)
            | _, _ => none)
          (some 0)).map (· + 1)

/-- Character-list prefix test. -/
def charsLead : List Char → List Char → Bool
  | [], _ => true
  | _ :: _, [] => false
  | a :: as, b :: bs => a == b && charsLead as bs

/-- `str.startswith` (kernel-reducible form over the character lists). -/
def pyStartsWith (s p : String) : Bool :=
  charsLead p.data s.data

/-- Extract the container name an operation is grouped by in the
parallel scheduler (`args.get("name")` / `args.get("container")`). -/
def opGroupName (o : Op) : Option String :=
  if pyStartsWith o.type "container." then
    match o.args with
    | .run n .. => some n
    | .runSkip n => some n
    | .containerRemove n => some n
    | _ => none
  else if o.type == "healthcheck.wait" then
    match o.args with
    | .hcWait c => some c
    | _ => none
  else none

/-- `container_op_map`: group container/healthcheck ops by container name,
preserving emission order. -/
def containerOpMap (containerOps : List Op) : List (String × List Op) :=
  containerOps.foldl
    (fun m o =>
      match opGroupName o with
      | some cname =>
          if (alookup m cname).isSome then amodify m cname (fun l => l ++ [o])
          else m ++ [(cname, [o])]
      | none => m)
    []

/-- The wave loop of the parallel scheduler.  A wave whose operation
list is empty reproduces `ThreadPoolExecutor(max_workers=min(0, 4))`,
which raises `ValueError`. -/
def waveLoop (cmap : List (String × List Op)) (hostDepths : List (String × Nat)) :
    List Nat → List Op → Except String (List Op)
  | [], acc => .ok acc
  | d :: ds, acc =>
      let waveHosts := (hostDepths.filter (fun p => p.2 == d)).map (·.1)
      let waveOps := waveHosts.flatMap (fun hid => (alookup cmap hid).getD [])
      if waveOps.isEmpty then
        .error "ValueError: max_workers must be greater than 0"
      else waveLoop cmap hostDepths ds (acc ++ waveOps)

/-- The order in which `provision` submits operations for execution when
`dry_run=False` and an executor is supplied (lines 352-425).  For
`parallel=True`: the serial `network.*` pass (whose filter also catches
`network.connect`!), then the container waves, then the serial
`network.connect` pass.  `.error` models an uncaught Python exception. -/
def provisionSchedule (plan : PlanResult) ( scenario : ScenarioDoc)
    (executor : Option Exec) (idempotent_mode : String) (isolate : Bool)
    (parallel : Bool) : Except String (List Op) :=
  let ops := (provisionOps plan scenario executor idempotent_mode isolate).ops
  if parallel then
    let networkOps := ops.filter (fun o => pyStartsWith o.type "network.")
    let containerOps := ops.filter
      (fun o => pyStartsWith o.type "container." || o.type == "healthcheck.wait")
    let connectOps := ops.filter (fun o => o.type == "network.connect")
    let cmap := containerOpMap containerOps
    let deps := hostDepsOf scenario.hosts
    let fuel := scenario.hosts.length + 1
    let depths := plan.ordered_components.map (fun hid => (hid, calcDepth deps fuel hid))
    if depths.any (fun p => p.2.isNone) then
      .error "RecursionError: maximum recursion depth exceeded"
    else
      let hostDepths := depths.map (fun p => (p.1, p.2.getD 0))
      let maxDepth := (hostDepths.map (·.2)).foldl max 0
      match waveLoop cmap hostDepths (List.range (maxDepth + 1)) [] with
      | .error e => .error e
      | .ok waveScheduled => .ok (networkOps ++ waveScheduled ++ connectOps)
  else
    .ok ops

/-! ## Validator (src/validator/scenario_validator.py) -/

structure VError where
  path : String
  message : String
  severity : String
deriving Repr, DecidableEq

structure ValidationResult where
  is_valid : Bool
  errors : List VError
  warnings : List VError
deriving Repr, DecidableEq

/-- Python `f"{x}"` for an optional string (`None` renders as `"None"`). -/
def showOptId : Option String → String
  | some s => s
  | none => "None"

/-- `_validate_semantics`: reference integrity (network, flag, host and
vulnerability references).  Python reads `net["id"]` etc. by subscript
(presence is guaranteed by the schema); absent ids are simply not
collected here. -/
def validateSemantics (s : ScenarioDoc) : List VError × List VError :=
  let network_ids := s.networks.filterMap (·.id)
  let host_ids := s.hosts.filterMap (·.id)
  let flag_ids := s.flags.filterMap (·.id)
  let hostRefIssues :=
    s.hosts.enum.foldl
      (fun (st : List VError × List VError) p =>
        let (idx, host) := p
        let host_id := host.id.getD ("host_" ++ toString idx)
        let netErrs :=
          host.networks.enum.filterMap
            (fun q =>
              let (nidx, r) := q
              match r.network_id, strTruthy r.network_id with
              | some nid, true =>
                  if nid ∈ network_ids then none
                  else some (VError.mk
                    ("hosts[" ++ toString idx ++ "].networks[" ++ toString nidx ++ "]")
                    ("Host '" ++ host_id ++ "' references unknown network '" ++ nid ++ "'")
                    "error")
              | _, _ => none)
        let flagErrs :=
          host.flags.filterMap
            (fun fid =>
              if fid ∈ flag_ids then none
              else some (VError.mk ("hosts[" ++ toString idx ++ "].flags")
                ("Host '" ++ host_id ++ "' references unknown flag '" ++ fid ++ "'")
                "error"))
        let attackerWarn :=
          if host.type == some "attacker" && !host.flags.isEmpty then
            [VError.mk ("hosts[" ++ toString idx ++ "]")
              ("Attacker host '" ++ host_id ++ "' has flags - this is unusual")
              "warning"]
          else []
        (st.1 ++ netErrs ++ flagErrs, st.2 ++ attackerWarn))
      ([], [])
  let placementErrs :=
    s.flags.enum.filterMap
      (fun p =>
        let (idx, flag) := p
        let flag_id := flag.id.getD ("flag_" ++ toString idx)
        let placement := flag.placement.getD Placement.empty
        match placement.host_id, strTruthy placement.host_id with
        | some hid, true =>
            if hid ∈ host_ids then none
            else some (VError.mk ("flags[" ++ toString idx ++ "].placement.host_id")
              ("Flag '" ++ flag_id ++ "' references unknown host '" ++ hid ++ "'")
              "error")
        | _, _ => none)
  let vulnerability_ids := s.vulnerabilities.map (·.id)
  let vulnWarns :=
    s.hosts.enum.flatMap
      (fun p =>
        let (idx, host) := p
        let host_id := host.id.getD ("host_" ++ toString idx)
        host.vulnerabilities.filterMap
          (fun vid =>
            if !s.vulnerabilities.isEmpty && !(some vid ∈ vulnerability_ids) then
              some (VError.mk ("hosts[" ++ toString idx ++ "].vulnerabilities")
                ("Host '" ++ host_id ++ "' references undefined vulnerability '" ++ vid ++ "'")
                "warning")
            else none))
  (hostRefIssues.1 ++ placementErrs, hostRefIssues.2 ++ vulnWarns)

/-- `_validate_topology`: at least one network/host, attacker count,
orphaned hosts, unused networks. -/
def validateTopology (s : ScenarioDoc) : List VError × List VError :=
  let errs :=
    (if s.networks.isEmpty then
      [VError.mk "networks" "Scenario must have at least one network" "error"]
    else [])
    ++ (if s.hosts.isEmpty then
      [VError.mk "hosts" "Scenario must have at least one host" "error"]
    else [])
  let attackerCount := (s.hosts.filter (fun h => h.type == some "attacker")).length
  let attackerWarns :=
    if attackerCount == 0 then
      [VError.mk "hosts" "No attacker host defined - scenario may not be solvable"
        "warning"]
    else if attackerCount > 1 then
      [VError.mk "hosts"
        ("Multiple attacker hosts defined (" ++ toString attackerCount
          ++ ") - this is unusual") "warning"]
    else []
  let orphanWarns :=
    s.hosts.enum.filterMap
      (fun p =>
        let (idx, host) := p
        if host.networks.isEmpty then
          some (VError.mk ("hosts[" ++ toString idx ++ "]")
            ("Host '" ++ host.id.getD ("host_" ++ toString idx)
              ++ "' is not connected to any network") "warning")
        else none)
  let used_networks :=
    s.hosts.flatMap
      (fun h => h.networks.filterMap
        (fun r => if strTruthy r.network_id then r.network_id else none))
  let unusedWarns :=
    s.networks.enum.filterMap
      (fun p =>
        let (idx, network) := p
        let net_id := network.id.getD ("net_" ++ toString idx)
        if net_id ∈ used_networks then none
        else some (VError.mk ("networks[" ++ toString idx ++ "]")
          ("Network '" ++ net_id ++ "' is defined but not used by any host")
          "warning"))
  (errs, attackerWarns ++ orphanWarns ++ unusedWarns)

/-- `_validate_flags`: no-flags warning (early return), duplicate values
and ids, per-placement-type required fields.  Python reads
`placement.get("details", {})` — an explicitly-null `details` is modelled
as the empty record. -/
def validateFlags (s : ScenarioDoc) : List VError × List VError :=
  if s.flags.isEmpty then
    ([], [VError.mk "flags" "Scenario has no flags - users won't have clear objectives"
      "warning"])
  else
    let valueErrs :=
      (s.flags.enum.foldl
        (fun (st : List VError × List String) p =>
          let (idx, flag) := p
          match flag.value, strTruthy flag.value with
          | some v, true =>
              ((if v ∈ st.2 then
                  st.1 ++ [VError.mk ("flags[" ++ toString idx ++ "].value")
                    ("Duplicate flag value: '" ++ v ++ "'") "error"]
                else st.1),
                st.2 ++ [v])
          | _, _ => st)
        ([], [])).1
    let idErrs :=
      (s.flags.enum.foldl
        (fun (st : List VError × List (Option String)) p =>
          let (idx, flag) := p
          ((if flag.id ∈ st.2 then
              st.1 ++ [VError.mk ("flags[" ++ toString idx ++ "].id")
                ("Duplicate flag ID: '" ++ showOptId flag.id ++ "'") "error"]
            else st.1),
            st.2 ++ [flag.id]))
        ([], [])).1
    let placementErrs :=
      s.flags.enum.filterMap
        (fun p =>
          let (idx, flag) := p
          let placement := flag.placement.getD Placement.empty
          match placement.type with
          | some "file" =>
              let details := placement.details.getD PlacementDetails.empty
              if !(strTruthy placement.path || strTruthy details.path) then
                some (VError.mk ("flags[" ++ toString idx ++ "].placement")
                  "File placement requires 'path' field" "error")
              else none
          | some "env_var" =>
              if !(strTruthy placement.«variable») then
                some (VError.mk ("flags[" ++ toString idx ++ "].placement")
                  "Environment variable placement requires 'variable' field" "error")
              else none
          | some "db_row" =>
              let details := placement.details.getD PlacementDetails.empty
              if !(strTruthy details.table) || !(strTruthy details.query) then
                some (VError.mk ("flags[" ++ toString idx ++ "].placement")
                  "Database placement requires 'table' and 'query' in details" "error")
              else none
          | _ => none)
    (valueErrs ++ idErrs ++ placementErrs, [])

/-- `ScenarioValidator.validate`.  Schema validation is performed by the
external `jsonschema` library against `schema/scenario.schema.json`
(neither is part of the sources verified here), so the schema check is a
parameter. -/
def validate (schemaCheck : ScenarioDoc → List VError) (s : ScenarioDoc) :
    ValidationResult :=
  let schemaErrors := schemaCheck s
  match schemaErrors with
  | _ :: _ => ⟨false, schemaErrors, []⟩
  | [] =>
      let (semErrs, semWarns) := validateSemantics s
      let (topoErrs, topoWarns) := validateTopology s
      let (flagErrs, flagWarns) := validateFlags s
      let errors := semErrs ++ topoErrs ++ flagErrs
      let warnings := semWarns ++ topoWarns ++ flagWarns
      ⟨errors.length == 0, errors, warnings⟩

/-! ## Concrete inputs used by the claim theorems -/

/-- Decidable equality for `Except` results (used to evaluate the
execution schedule on concrete inputs). -/
instance {ε α : Type} [DecidableEq ε] [DecidableEq α] : DecidableEq (Except ε α) :=
  fun a b =>
    match a, b with
    | .error e, .error f =>
        if h : e = f then .isTrue (by rw [h])
        else .isFalse (fun c => h (Except.error.inj c))
    | .ok x, .ok y =>
        if h : x = y then .isTrue (by rw [h])
        else .isFalse (fun c => h (Except.ok.inj c))
    | .error _, .ok _ => .isFalse (fun c => Except.noConfusion c)
    | .ok _, .error _ => .isFalse (fun c => Except.noConfusion c)

/-- A host with the given id, type, networks, dependencies, services and
healthcheck; remaining fields empty. -/
def mkHost (i t : String) (nets : List NetRef) (deps : List String)
    (svcs : List String) (hc : Option HealthcheckCfg) : Host :=
  ⟨some i, some t, some "img", nets, svcs, deps, none, [], [], hc, none, [], []⟩

/-- Executor whose every command reports success (exit code 0): every
inspect probe says the resource exists. -/
def allExistsExec : Exec := fun _ => (0, "", "")

/-- Executor whose every command reports failure (exit code 1): every
inspect probe says the resource does not exist. -/
def noneExistsExec : Exec := fun _ => (1, "", "")

/-- Executor for which only the container `host_web` exists. -/
def webExistsExec : Exec := fun c =>
  if c == ["docker", "container", "inspect", "host_web"] then (0, "", "")
  else (1, "", "")

/-- ScenarioDoc for C1: `host_app` (type db) depends on `host_web` (type web);
the dependency graph is acyclic with the single edge
host_web → host_app. -/
def c1Input : ScenarioDoc :=
  ⟨[], [mkHost "host_app" "db" [] ["host_web"] [] none,
        mkHost "host_web" "web" [] [] [] none], [], [], []⟩

/-- Two-network scenario whose single host joins both networks. -/
def twoNetInput : ScenarioDoc :=
  ⟨[⟨some "n1", some "10.0.0.0/24"⟩, ⟨some "n2", some "10.0.1.0/24"⟩],
   [mkHost "h1" "web" [⟨some "n1", some "10.0.0.5"⟩, ⟨some "n2", some "10.0.1.5"⟩]
      [] [] none],
   [], [], []⟩

/-- A healthcheck configuration with every field set. -/
def hcSample : HealthcheckCfg :=
  ⟨some "curl -f http://localhost/ || exit 1", some "30s", some "3s", some "3",
    some "40s"⟩

/-- ScenarioDoc for C4: one host with a healthcheck on two networks. -/
def hcInput : ScenarioDoc :=
  ⟨[⟨some "net_dmz", some "172.21.0.0/24"⟩, ⟨some "net_internal", some "172.22.0.0/24"⟩],
   [mkHost "host_web" "web"
      [⟨some "net_dmz", some "172.21.0.20"⟩, ⟨some "net_internal", some "172.22.0.20"⟩]
      [] [] (some hcSample)],
   [], [], []⟩

/-- ScenarioDoc for C7: one network and no hosts. -/
def noHostInput : ScenarioDoc :=
  ⟨[⟨some "n1", some "10.0.0.0/24"⟩], [], [], [], []⟩

/-! ## C1 — topological correctness of `plan_scenario` -/

/-- C1: the claim fails on the code.  In `c1Input` the dependency graph
is acyclic with the single edge host_web → host_app (host_app declares
`depends_on = [host_web]`), and planning reports no error, yet
`ordered_components` places `host_app` before `host_web`: the re-sort of
`topo_order` by (type-priority, id) discards the topological order its
own comment claims to preserve. -/
theorem planner_topo_order_violated :
    c1Input.hosts.map Host.depends_on = [["host_web"], []]
    ∧ (planScenarioDoc c1Input).errors = []
    ∧ (planScenarioDoc c1Input).ordered_components = ["host_app", "host_web"] := by
  decide

/-! ## C2 — parallel execution order of `network.connect` -/

/-- C2: the claim fails on the code.  With one host on two networks
(`twoNetInput`), `parallel=True`, `dry_run=False` and an executor whose
probes report nothing exists, the emission produces exactly one
`network.connect`, but the execution schedule runs a `network.connect`
in the serial network phase BEFORE the `container.run` wave (the phase
filter `startswith("network.")` also catches `network.connect`) and runs
it a second time in the final connect phase. -/
theorem parallel_connect_schedule_violated :
    ((provisionOps (planScenarioDoc twoNetInput) twoNetInput
        (some noneExistsExec) "skip" false).ops.countP
      (fun o => o.type == "network.connect")) = 1
    ∧ (provisionSchedule (planScenarioDoc twoNetInput) twoNetInput
        (some noneExistsExec) "skip" false true).map (fun l => l.map (·.type))
      = .ok ["network.create", "network.create", "network.connect",
             "container.run", "network.connect"] := by
  decide

/-! ## C4 — healthcheck.wait under replace mode -/

/-- C4: the claim fails on the code.  In `hcInput` the host declares a
healthcheck; under `idempotent_mode="replace"` with an executor reporting
the container as existing, the stream re-creates the container
(`container.remove` then `container.run`, not a skip) yet contains no
`healthcheck.wait` at all: the emission guards the wait with
`not exists` instead of "not skipped". -/
theorem replace_mode_omits_healthcheck_wait :
    hcInput.hosts.map (fun h => h.healthcheck.isSome) = [true]
    ∧ ((provisionOps (planScenarioDoc hcInput) hcInput
        (some webExistsExec) "replace" false).ops.map (·.type))
      = ["network.create", "network.create", "container.remove",
         "container.run", "network.connect"] := by
  decide

/-! ## C7 — provision raising on an empty wave -/

/-- C7: the claim fails on the code.  With `parallel=True`,
`dry_run=False` and an executor, a wave containing zero container
operations (here: a scenario with no hosts, so wave 0 is empty) makes
`provision` construct `ThreadPoolExecutor(max_workers=min(0, 4))`, which
raises `ValueError` instead of accumulating an error. -/
theorem parallel_empty_wave_raises :
    provisionSchedule (planScenarioDoc noHostInput) noHostInput
      (some noneExistsExec) "skip" false true
      = .error "ValueError: max_workers must be greater than 0" := by
  decide

/-! ## C3 — second provision run in skip mode -/

/-- C3 counterexample: the claim as stated is false.  On a second run in
`skip` mode with an executor reporting every resource as existing, a host
with two networks still gets a `network.connect` operation emitted, so
the operations list is not made of skip operations only. -/
theorem skip_second_run_emits_connect_cex :
    ((provisionOps (planScenarioDoc twoNetInput) twoNetInput
        (some allExistsExec) "skip" false).ops.map (·.type))
      = ["network.create.skip", "network.create.skip", "container.run.skip",
         "network.connect"]
    ∧ ((provisionOps (planScenarioDoc twoNetInput) twoNetInput
        (some allExistsExec) "skip" false).ops.countP
      (fun o => o.type == "network.connect")) = 1 := by
  decide

/-! ## C9 — validator short-circuit and is_valid ⟺ no errors -/

/-- C9: confirmed.  If the schema check yields any error,
`ScenarioValidator.validate` returns immediately with `is_valid = false`,
exactly the schema errors, and no warnings — no semantic, topology, or
flag check contributes; and in every case `is_valid` holds iff the
returned error list is empty. -/
theorem validator_schema_short_circuit (schemaCheck : ScenarioDoc → List VError)
    (s : ScenarioDoc) :
    (schemaCheck s ≠ [] →
      validate schemaCheck s = ⟨false, schemaCheck s, []⟩)
    ∧ ((validate schemaCheck s).is_valid = true ↔ (validate schemaCheck s).errors = []) := by
  constructor
  · intro h
    unfold validate
    cases hsc : schemaCheck s with
    | nil => exact absurd hsc h
    | cons a l => rfl
  · unfold validate
    cases hsc : schemaCheck s with
    | nil =>
        simp only []
        constructor
        · intro h
          have := of_decide_eq_true (by simpa [Nat.beq_eq_true_eq] using h)
          exact List.eq_nil_of_length_eq_zero (by simpa using h)
        · intro h
          simp [h]
    | cons a l =>
        constructor
        · intro h
          exact absurd h (by simp)
        · intro h
          exact absurd h (by simp)

/-- C9 witness: a schema check that reports one error makes `validate`
return just that error, invalid, with no warnings. -/
theorem validator_schema_short_circuit_witness :
    validate (fun _ => [⟨"root", "bad", "error"⟩]) noHostInput
      = ⟨false, [⟨"root", "bad", "error"⟩], []⟩ :=
  (validator_schema_short_circuit (fun _ => [⟨"root", "bad", "error"⟩])
    noHostInput).1 (by decide)

/-! ## C3 — amended: second run in skip mode emits only skips plus connects -/

/-- With an executor whose probes all exit 0, a network-topology entry in
skip mode emits exactly its `network.create.skip` operation. -/
lemma netEntryOps_all_exists (e : Exec) (he : ∀ cmd, (e cmd).1 = 0)
    (entry : String × TopoEntry) :
    (netEntryOps (some e) "skip" entry).1
      = [⟨"network.create.skip", .netSkip entry.1 entry.2.subnet,
          ["# network exists, skipping creation"]⟩] := by
  obtain ⟨nid, info⟩ := entry
  unfold netEntryOps networkExists
  simp [he]

/-- With an executor whose probes all exit 0, a planned host in skip mode
emits only `container.run.skip` and `network.connect` operations. -/
lemma hostEntryOps_all_exists (e : Exec) (he : ∀ cmd, (e cmd).1 = 0)
    (isolate : Bool) ( scenario : ScenarioDoc) (plan : PlanResult) (hid : String) :
    ∀ op ∈ (hostEntryOps (some e) "skip" isolate scenario plan hid).1,
      op.type = "container.run.skip" ∨ op.type = "network.connect" := by
  intro op hop
  cases hhost : hostsById scenario.hosts hid with
  | none => simp [hostEntryOps, hhost] at hop
  | some host =>
      cases hnets : host.networks with
      | nil => simp [hostEntryOps, hhost, hnets] at hop
      | cons primary extras =>
          simp only [hostEntryOps, containerExists, hhost, hnets, he,
            decide_eq_true_eq, decide_True, Bool.not_true, Bool.and_false,
            List.append_nil, beq_self_eq_true, if_true, ite_true, if_false,
            Bool.false_eq_true, List.mem_nil_iff, or_false,
            List.mem_append, List.mem_singleton, List.mem_map] at hop
          rcases hop with h1 | ⟨extra, _, hex⟩
          · left; rw [h1]
          · right; rw [← hex]; rfl

/-- C3 amended: for every plan and scenario, provisioning in `skip` mode
against an executor whose probes all report "exists" emits only
`network.create.skip`, `container.run.skip` and `network.connect`
operations — in particular no `network.create`, `container.run`, remove
or `healthcheck.wait`; the `network.connect` operations for extra
networks are still emitted. -/
theorem provision_all_exists_skip_types (plan : PlanResult) ( scenario : ScenarioDoc)
    (isolate : Bool) (e : Exec) (he : ∀ cmd, (e cmd).1 = 0) :
    ∀ op ∈ (provisionOps plan scenario (some e) "skip" isolate).ops,
      op.type = "network.create.skip" ∨ op.type = "container.run.skip"
      ∨ op.type = "network.connect" := by
  intro op hop
  unfold provisionOps at hop
  simp only [List.mem_append, List.mem_flatMap, List.mem_map] at hop
  rcases hop with ⟨l, ⟨entry, _, hl⟩, hopl⟩ | ⟨l, ⟨hid, _, hl⟩, hopl⟩
  · left
    rw [← hl, netEntryOps_all_exists e he entry] at hopl
    simpa using congrArg Op.type (List.mem_singleton.mp hopl)
  · right
    rw [← hl] at hopl
    exact hostEntryOps_all_exists e he isolate scenario plan hid op hopl

/-- C3 witness: at the concrete two-network scenario with the all-exists
executor, the first emitted operation is of one of the allowed skip or
connect types. -/
theorem provision_all_exists_skip_types_witness :
    (⟨"network.create.skip", .netSkip "n1" (some "10.0.0.0/24"),
        ["# network exists, skipping creation"]⟩ : Op).type
      = "network.create.skip"
    ∨ (⟨"network.create.skip", .netSkip "n1" (some "10.0.0.0/24"),
        ["# network exists, skipping creation"]⟩ : Op).type
      = "container.run.skip"
    ∨ (⟨"network.create.skip", .netSkip "n1" (some "10.0.0.0/24"),
        ["# network exists, skipping creation"]⟩ : Op).type
      = "network.connect" :=
  provision_all_exists_skip_types (planScenarioDoc twoNetInput) twoNetInput
    false allExistsExec (fun _ => rfl)
    ⟨"network.create.skip", .netSkip "n1" (some "10.0.0.0/24"),
      ["# network exists, skipping creation"]⟩
    (by decide)

/-! ## C10 — probes and idempotency with an executor, dry_run or not -/

/-- With an executor, a network entry issues exactly its inspect probe. -/
lemma netEntryOps_calls_some (e : Exec) (mode : String)
    (entry : String × TopoEntry) :
    (netEntryOps (some e) mode entry).2
      = [["docker", "network", "inspect", entry.1]] := by
  obtain ⟨nid, info⟩ := entry
  simp only [netEntryOps, networkExists]

/-- With an executor, a resolvable host with a nonempty network list
issues exactly its container inspect probe. -/
lemma hostEntryOps_calls_some (e : Exec) (mode : String) (isolate : Bool)
    ( scenario : ScenarioDoc) (plan : PlanResult) (hid : String) (h : Host)
    (hh : hostsById scenario.hosts hid = some h) (hn : h.networks ≠ []) :
    (hostEntryOps (some e) mode isolate scenario plan hid).2.2
      = [["docker", "container", "inspect", hid]] := by
  cases hnets : h.networks with
  | nil => exact absurd hnets hn
  | cons primary extras =>
      simp only [hostEntryOps, containerExists, hh, hnets]

/-- Without an executor, no probe is issued by a network entry. -/
lemma netEntryOps_calls_none (mode : String) (entry : String × TopoEntry) :
    (netEntryOps none mode entry).2 = [] := by
  obtain ⟨nid, info⟩ := entry
  simp only [netEntryOps, networkExists]

/-- Without an executor, no probe is issued for a host. -/
lemma hostEntryOps_calls_none (mode : String) (isolate : Bool)
    ( scenario : ScenarioDoc) (plan : PlanResult) (hid : String) :
    (hostEntryOps none mode isolate scenario plan hid).2.2 = [] := by
  cases hhost : hostsById scenario.hosts hid with
  | none => simp [hostEntryOps, hhost]
  | some host =>
      cases hnets : host.networks with
      | nil => simp [hostEntryOps, hhost, hnets]
      | cons primary extras => simp [hostEntryOps, containerExists, hhost, hnets]

/-- Without an executor, a network entry emits exactly its create. -/
lemma netEntryOps_ops_none (mode : String) (entry : String × TopoEntry) :
    (netEntryOps none mode entry).1 = [networkCreateOp entry.1 entry.2.subnet] := by
  obtain ⟨nid, info⟩ := entry
  simp only [netEntryOps, networkExists]
  simp

/-- Without an executor, a host entry emits only run, wait and connect
operations (never a skip or a remove). -/
lemma hostEntryOps_ops_none (mode : String) (isolate : Bool)
    ( scenario : ScenarioDoc) (plan : PlanResult) (hid : String) :
    ∀ op ∈ (hostEntryOps none mode isolate scenario plan hid).1,
      op.type = "container.run" ∨ op.type = "healthcheck.wait"
      ∨ op.type = "network.connect" := by
  intro op hop
  cases hhost : hostsById scenario.hosts hid with
  | none => simp [hostEntryOps, hhost] at hop
  | some host =>
      cases hnets : host.networks with
      | nil => simp [hostEntryOps, hhost, hnets] at hop
      | cons primary extras =>
          simp only [hostEntryOps, containerExists, hhost, hnets,
            Bool.false_eq_true, if_false, Bool.not_false, Bool.and_true,
            List.mem_append, List.mem_singleton, List.mem_map] at hop
          rcases hop with h1 | ⟨extra, _, hex⟩
          · rcases h1 with h1 | h2
            · left; rw [h1]; rfl
            · right; left
              rcases hih : host.healthcheck.isSome with hfalse | htrue
              all_goals rw [hih] at h2; simp at h2
              · rw [h2]; rfl
          · right; right; rw [← hex]; rfl

/-- Membership in a flatMap over a map. -/
lemma mem_flatMap_map {α β γ : Type} (f : α → β) (g : β → List γ) (l : List α)
    (a : α) (ha : a ∈ l) (c : γ) (hc : c ∈ g (f a)) :
    c ∈ (l.map f).flatMap g := by
  simp only [List.mem_flatMap, List.mem_map]
  exact ⟨f a, ⟨a, ha, rfl⟩, hc⟩

/-- Decompose a flatMap over a map at a member. -/
lemma flatMap_map_decomp {α β : Type} (f : α → List β) (l : List α)
    (a : α) (ha : a ∈ l) :
    ∃ pre post, (l.map f).flatMap id = pre ++ f a ++ post := by
  obtain ⟨s, t, rfl⟩ := List.append_of_mem ha
  refine ⟨(s.map f).flatMap id, (t.map f).flatMap id, ?_⟩
  simp [List.flatMap_append]

/-- C10: confirmed.  With an executor supplied (regardless of `dry_run` —
the emission phase is the same), provision (a) issues only
network-inspect and container-inspect probes, and no mutating command;
(b) probes every planned network; (c) probes every planned host that
resolves and has a network; (d)/(e) in skip mode emits a `*.skip`
operation for every existing network and every existing container;
(f)/(g) in replace mode emits `network.remove` immediately followed by
the network re-create for every existing network, and `container.remove`
immediately followed by the container re-run for every existing
container of a resolvable planned host; and (h) with no executor it
assumes nothing exists: no probe is issued and no skip or remove
operation is emitted. -/
theorem probes_run_with_executor (plan : PlanResult) ( scenario : ScenarioDoc)
    (e : Exec) (mode : String) (isolate : Bool) :
    (∀ c ∈ (provisionOps plan scenario (some e) mode isolate).calls,
        (∃ n, c = ["docker", "network", "inspect", n])
        ∨ (∃ n, c = ["docker", "container", "inspect", n]))
    ∧ (∀ p ∈ plan.network_topology,
        ["docker", "network", "inspect", p.1]
          ∈ (provisionOps plan scenario (some e) mode isolate).calls)
    ∧ (∀ hid ∈ plan.ordered_components, ∀ h, hostsById scenario.hosts hid = some h →
        h.networks ≠ [] →
        ["docker", "container", "inspect", hid]
          ∈ (provisionOps plan scenario (some e) mode isolate).calls)
    ∧ (mode = "skip" → ∀ p ∈ plan.network_topology,
        (e ["docker", "network", "inspect", p.1]).1 = 0 →
        (⟨"network.create.skip", .netSkip p.1 p.2.subnet,
            ["# network exists, skipping creation"]⟩ : Op)
          ∈ (provisionOps plan scenario (some e) mode isolate).ops)
    ∧ (mode = "skip" → ∀ hid ∈ plan.ordered_components,
        ∀ h, hostsById scenario.hosts hid = some h → h.networks ≠ [] →
        (e ["docker", "container", "inspect", hid]).1 = 0 →
        (⟨"container.run.skip", .runSkip hid,
            ["# container exists, skipping run"]⟩ : Op)
          ∈ (provisionOps plan scenario (some e) mode isolate).ops)
    ∧ (mode = "replace" → ∀ p ∈ plan.network_topology,
        (e ["docker", "network", "inspect", p.1]).1 = 0 →
        ∃ pre post, (provisionOps plan scenario (some e) mode isolate).ops
          = pre ++ [⟨"network.remove", .netRemove p.1,
                      ["docker", "network", "rm", p.1]⟩,
                    networkCreateOp p.1 p.2.subnet] ++ post)
    ∧ (mode = "replace" → ∀ hid ∈ plan.ordered_components,
        ∀ h, hostsById scenario.hosts hid = some h →
        ∀ primary extras, h.networks = primary :: extras →
        (e ["docker", "container", "inspect", hid]).1 = 0 →
        ∃ pre post, (provisionOps plan scenario (some e) mode isolate).ops
          = pre ++ [⟨"container.remove", .containerRemove hid,
                      ["docker", "rm", "-f", hid]⟩,
                    containerRunOp hid h primary.network_id primary.ip_address
                      ((alookup plan.resource_allocation hid).getD
                        ⟨none, none, none, []⟩).ports isolate] ++ post)
    ∧ ((provisionOps plan scenario none mode isolate).calls = []
        ∧ ∀ op ∈ (provisionOps plan scenario none mode isolate).ops,
            op.type ≠ "network.create.skip" ∧ op.type ≠ "container.run.skip"
            ∧ op.type ≠ "network.remove" ∧ op.type ≠ "container.remove") := by
  refine ⟨?_, ?_, ?_, ?_, ?_, ?_, ?_, ?_, ?_⟩
  · -- (a) every call is a probe
    intro c hc
    unfold provisionOps at hc
    simp only [List.mem_append, List.mem_flatMap, List.mem_map] at hc
    rcases hc with ⟨l, ⟨entry, _, hl⟩, hcl⟩ | ⟨l, ⟨hid, _, hl⟩, hcl⟩
    · left
      rw [← hl, netEntryOps_calls_some] at hcl
      exact ⟨entry.1, List.mem_singleton.mp hcl⟩
    · right
      rw [← hl] at hcl
      refine ⟨hid, ?_⟩
      rcases hhost : hostsById scenario.hosts hid with _ | host
      · rw [hostEntryOps, hhost] at hcl; simp at hcl
      · rcases hnets : host.networks with _ | ⟨primary, extras⟩
        · simp [hostEntryOps, hhost, hnets] at hcl
        · rw [hostEntryOps_calls_some e mode isolate scenario plan hid host hhost
            (by rw [hnets]; simp)] at hcl
          exact List.mem_singleton.mp hcl
  · -- (b) every network probed
    intro p hp
    unfold provisionOps
    simp only [List.mem_append]
    left
    exact mem_flatMap_map _ _ _ p hp _
      (by rw [netEntryOps_calls_some]; exact List.mem_singleton.mpr rfl)
  · -- (c) every resolvable host probed
    intro hid hhid h hh hn
    unfold provisionOps
    simp only [List.mem_append]
    right
    exact mem_flatMap_map _ _ _ hid hhid _
      (by rw [hostEntryOps_calls_some e mode isolate scenario plan hid h hh hn]
          exact List.mem_singleton.mpr rfl)
  · -- (d) network skip op on existing network
    intro hmode p hp hex
    subst hmode
    unfold provisionOps
    simp only [List.mem_append]
    left
    refine mem_flatMap_map _ _ _ p hp _ ?_
    obtain ⟨nid, info⟩ := p
    simp only [netEntryOps, networkExists, hex]
    simp
  · -- (e) container skip op on existing container
    intro hmode hid hhid h hh hn hex
    subst hmode
    unfold provisionOps
    simp only [List.mem_append]
    right
    refine mem_flatMap_map _ _ _ hid hhid _ ?_
    rcases hnets : h.networks with _ | ⟨primary, extras⟩
    · exact absurd hnets hn
    · simp only [hostEntryOps, containerExists, hh, hnets, hex]
      simp
  · -- (f) network remove-then-create on existing network in replace mode
    intro hmode p hp hex
    subst hmode
    unfold provisionOps
    have hops : (netEntryOps (some e) "replace" p).1
        = [⟨"network.remove", .netRemove p.1, ["docker", "network", "rm", p.1]⟩,
           networkCreateOp p.1 p.2.subnet] := by
      obtain ⟨nid, info⟩ := p
      simp only [netEntryOps, networkExists, hex]
      simp
    obtain ⟨pre, post, hdecomp⟩ :=
      flatMap_map_decomp (fun entry => (netEntryOps (some e) "replace" entry).1)
        plan.network_topology p hp
    refine ⟨pre, post ++ (plan.ordered_components.map
      (hostEntryOps (some e) "replace" isolate scenario plan)).flatMap (·.1), ?_⟩
    have hflat : ∀ (l : List (String × TopoEntry)),
        (l.map (netEntryOps (some e) "replace")).flatMap (·.1)
          = (l.map (fun entry => (netEntryOps (some e) "replace" entry).1)).flatMap id := by
      intro l
      induction l with
      | nil => rfl
      | cons x xs ih => simp [List.flatMap_cons, ih]
    show (plan.network_topology.map (netEntryOps (some e) "replace")).flatMap (·.1)
        ++ _ = _
    rw [hflat, hdecomp, hops]
    simp [List.append_assoc]
  · -- (g) container remove-then-run on existing container in replace mode
    intro hmode hid hhid h hh primary extras hnets hex
    subst hmode
    unfold provisionOps
    have hops : (hostEntryOps (some e) "replace" isolate scenario plan hid).1
        = [⟨"container.remove", .containerRemove hid, ["docker", "rm", "-f", hid]⟩,
           containerRunOp hid h primary.network_id primary.ip_address
             ((alookup plan.resource_allocation hid).getD
               ⟨none, none, none, []⟩).ports isolate]
          ++ extras.map (fun extra => networkConnectOp hid extra.network_id
               extra.ip_address) := by
      simp only [hostEntryOps, containerExists, hh, hnets, hex]
      simp
    obtain ⟨preH, postH, hdecomp⟩ :=
      flatMap_map_decomp (fun hid => (hostEntryOps (some e) "replace" isolate
        scenario plan hid).1) plan.ordered_components hid hhid
    have hflat : ∀ (l : List String),
        (l.map (hostEntryOps (some e) "replace" isolate scenario plan)).flatMap (·.1)
          = (l.map (fun hid => (hostEntryOps (some e) "replace" isolate scenario
              plan hid).1)).flatMap id := by
      intro l
      induction l with
      | nil => rfl
      | cons x xs ih => simp [List.flatMap_cons, ih]
    refine ⟨(plan.network_topology.map (netEntryOps (some e) "replace")).flatMap (·.1)
        ++ preH,
      extras.map (fun extra => networkConnectOp hid extra.network_id
        extra.ip_address) ++ postH, ?_⟩
    show _ ++ (plan.ordered_components.map (hostEntryOps (some e) "replace" isolate
        scenario plan)).flatMap (·.1) = _
    rw [hflat, hdecomp, hops]
    simp [List.append_assoc]
  · -- (h) no executor: no calls
    unfold provisionOps
    have h1 : ∀ entry ∈ plan.network_topology,
        (netEntryOps none mode entry).2 = [] := fun entry _ =>
      netEntryOps_calls_none mode entry
    have h2 : ∀ hid ∈ plan.ordered_components,
        (hostEntryOps none mode isolate scenario plan hid).2.2 = [] := fun hid _ =>
      hostEntryOps_calls_none mode isolate scenario plan hid
    simp only [List.flatMap_eq_nil_iff, List.append_eq_nil]
    constructor
    · intro l hl
      simp only [List.mem_map] at hl
      obtain ⟨entry, hentry, rfl⟩ := hl
      exact h1 entry hentry
    · intro l hl
      simp only [List.mem_map] at hl
      obtain ⟨hid, hhid, rfl⟩ := hl
      exact h2 hid hhid
  · -- (i) no executor: no skip and no remove ops
    intro op hop
    unfold provisionOps at hop
    simp only [List.mem_append, List.mem_flatMap, List.mem_map] at hop
    rcases hop with ⟨l, ⟨entry, _, hl⟩, hopl⟩ | ⟨l, ⟨hid, _, hl⟩, hopl⟩
    · rw [← hl, netEntryOps_ops_none] at hopl
      have ht : op.type = "network.create" := by
        rw [List.mem_singleton.mp hopl]; rfl
      refine ⟨by rw [ht]; decide, by rw [ht]; decide, by rw [ht]; decide,
        by rw [ht]; decide⟩
    · rw [← hl] at hopl
      rcases hostEntryOps_ops_none mode isolate scenario plan hid op hopl with
        h | h | h <;> rw [h] <;> exact ⟨by decide, by decide, by decide, by decide⟩

/-- C10 witness: at the concrete two-network scenario with an executor,
the container probe for host `h1` is among the executor invocations even
though `dry_run` would be true (emission does not depend on it), and in
replace mode the existing container gets `container.remove` immediately
followed by its re-run. -/
theorem probes_run_with_executor_witness :
    (["docker", "container", "inspect", "h1"]
      ∈ (provisionOps (planScenarioDoc twoNetInput) twoNetInput
          (some allExistsExec) "skip" false).calls)
    ∧ (∃ pre post, (provisionOps (planScenarioDoc twoNetInput) twoNetInput
          (some allExistsExec) "replace" false).ops
        = pre ++ [⟨"container.remove", .containerRemove "h1",
                    ["docker", "rm", "-f", "h1"]⟩,
                  containerRunOp "h1"
                    (mkHost "h1" "web" [⟨some "n1", some "10.0.0.5"⟩,
                      ⟨some "n2", some "10.0.1.5"⟩] [] [] none)
                    (some "n1") (some "10.0.0.5")
                    ((alookup (planScenarioDoc twoNetInput).resource_allocation
                      "h1").getD ⟨none, none, none, []⟩).ports false] ++ post) :=
  ⟨(probes_run_with_executor (planScenarioDoc twoNetInput) twoNetInput
      allExistsExec "skip" false).2.2.1 "h1" (by decide)
    (mkHost "h1" "web" [⟨some "n1", some "10.0.0.5"⟩, ⟨some "n2", some "10.0.1.5"⟩]
      [] [] none)
    (by decide) (by decide),
   (probes_run_with_executor (planScenarioDoc twoNetInput) twoNetInput
      allExistsExec "replace" false).2.2.2.2.2.2.1 rfl "h1" (by decide)
    (mkHost "h1" "web" [⟨some "n1", some "10.0.0.5"⟩, ⟨some "n2", some "10.0.1.5"⟩]
      [] [] none)
    (by decide) ⟨some "n1", some "10.0.0.5"⟩ [⟨some "n2", some "10.0.1.5"⟩]
    (by decide) (by decide)⟩

/-! ## C5 — attackers never before non-attackers -/

/-- Every element of the non-attacker block of the post-pass fails the
attacker test. -/
lemma attackerLastPass_left (hosts : List Host) (l : List String) :
    ∀ x ∈ l.filter (fun hid => !(hid ∈ l.filter (isAttackerId hosts))),
      isAttackerId hosts x = false := by
  intro x hx
  rcases List.mem_filter.mp hx with ⟨hxl, hnot⟩
  by_contra hc
  have hatt : isAttackerId hosts x = true := by
    cases h : isAttackerId hosts x with
    | false => exact absurd h hc
    | true => rfl
  have : x ∈ l.filter (isAttackerId hosts) := List.mem_filter.mpr ⟨hxl, hatt⟩
  simp [this] at hnot

/-- Every element of the attacker block passes the attacker test. -/
lemma attackerLastPass_right (hosts : List Host) (l : List String) :
    ∀ x ∈ l.filter (isAttackerId hosts), isAttackerId hosts x = true := by
  intro x hx
  exact (List.mem_filter.mp hx).2

/-- In a list of the form `A ++ B` with `A` all-false and `B` all-true
for a predicate, a true element is never followed by a false one. -/
lemma no_true_before_false {α : Type} (p : α → Bool) (A B : List α)
    (hA : ∀ x ∈ A, p x = false) (hB : ∀ x ∈ B, p x = true)
    (i j : Nat) (hij : i < j) (hj : j < (A ++ B).length)
    (hi : p ((A ++ B).get ⟨i, Nat.lt_trans hij hj⟩) = true) :
    p ((A ++ B).get ⟨j, hj⟩) = true := by
  have hiA : ¬ i < A.length := by
    intro hlt
    have : (A ++ B).get ⟨i, Nat.lt_trans hij hj⟩ = A.get ⟨i, hlt⟩ := by
      simp [List.getElem_append_left hlt]
    rw [this] at hi
    have := hA (A.get ⟨i, hlt⟩) (List.get_mem A i hlt)
    rw [this] at hi
    exact Bool.false_ne_true hi
  have hjA : A.length ≤ j := le_trans (Nat.le_of_not_lt hiA) (Nat.le_of_lt hij)
  have hjB : j - A.length < B.length := by
    have := hj
    rw [List.length_append] at this
    omega
  have : (A ++ B).get ⟨j, hj⟩ = B.get ⟨j - A.length, hjB⟩ := by
    simp [List.getElem_append_right hjA]
  rw [this]
  exact hB _ (List.get_mem B _ hjB)

/-- C5: confirmed.  In the ordered components returned by
`plan_scenario`, no id passing the planner's attacker test appears
before an id failing it: the final post-pass moves every attacker to
the end regardless of dependency placement. -/
theorem attacker_never_before_non_attacker ( scenario : ScenarioDoc)
    (i j : Nat) (hij : i < j)
    (hj : j < (planScenarioDoc scenario).ordered_components.length)
    (hi : isAttackerId scenario.hosts
      ((planScenarioDoc scenario).ordered_components.get ⟨i, Nat.lt_trans hij hj⟩)
        = true) :
    isAttackerId scenario.hosts
      ((planScenarioDoc scenario).ordered_components.get ⟨j, hj⟩) = true := by
  obtain ⟨l, hl⟩ : ∃ l, (planScenarioDoc scenario).ordered_components
      = attackerLastPass scenario.hosts l := ⟨_, rfl⟩
  revert hj hi
  rw [hl]
  unfold attackerLastPass
  intro hj hi
  exact no_true_before_false (isAttackerId scenario.hosts) _ _
    (attackerLastPass_left scenario.hosts l)
    (attackerLastPass_right scenario.hosts l) i j hij hj hi

/-- Two-attacker input exercising the attacker-last theorem. -/
def twoAttackerInput : ScenarioDoc :=
  ⟨[⟨some "n1", some "10.0.0.0/24"⟩],
   [mkHost "a1" "attacker" [⟨some "n1", some "10.0.0.5"⟩] [] [] none,
    mkHost "a2" "attacker" [⟨some "n1", some "10.0.0.6"⟩] [] [] none],
   [], [], []⟩

/-- C5 witness: in the two-attacker plan, the id after an attacker at
position 0 is itself an attacker. -/
theorem attacker_never_before_non_attacker_witness :
    isAttackerId twoAttackerInput.hosts
      ((planScenarioDoc twoAttackerInput).ordered_components.get
        ⟨1, by decide⟩) = true :=
  attacker_never_before_non_attacker twoAttackerInput 0 1 (by decide)
    (by decide) (by decide)

/-! ## C6 support: association-list and permutation lemmas -/

lemma alookup_cons {β : Type} (a : String) (b : β) (t : List (String × β))
    (v : String) :
    alookup ((a, b) :: t) v = if a == v then some b else alookup t v := by
  simp only [alookup, List.find?_cons]
  cases h : (a == v) with
  | true => simp
  | false => simp

lemma amodify_cons {β : Type} (a : String) (b : β) (t : List (String × β))
    (k : String) (f : β → β) :
    amodify ((a, b) :: t) k f
      = (if a == k then (a, f b) else (a, b)) :: amodify t k f := by
  simp only [amodify, List.map_cons]

lemma alookup_amodify_eq {β : Type} (m : List (String × β)) (k : String)
    (f : β → β) : alookup (amodify m k f) k = (alookup m k).map f := by
  induction m with
  | nil => rfl
  | cons p t ih =>
      obtain ⟨a, b⟩ := p
      rw [amodify_cons]
      cases hak : (a == k) with
      | true =>
          simp only [hak, if_true]
          rw [alookup_cons, alookup_cons, if_pos hak, if_pos hak]
          rfl
      | false =>
          simp only [hak, Bool.false_eq_true, if_false]
          rw [alookup_cons, alookup_cons, if_neg (by simp [hak]),
            if_neg (by simp [hak])]
          exact ih

lemma alookup_amodify_ne {β : Type} (m : List (String × β)) (k v : String)
    (f : β → β) (h : v ≠ k) :
    alookup (amodify m k f) v = alookup m v := by
  induction m with
  | nil => rfl
  | cons p t ih =>
      obtain ⟨a, b⟩ := p
      rw [amodify_cons]
      cases hak : (a == k) with
      | true =>
          have hav : (a == v) = false := by
            have hak2 : a = k := by simpa using hak
            rw [hak2]
            exact beq_eq_false_iff_ne.mpr (fun e => h e.symm)
          simp only [hak, if_true]
          rw [alookup_cons, alookup_cons, if_neg (by simp [hav]),
            if_neg (by simp [hav])]
          exact ih
      | false =>
          simp only [hak, Bool.false_eq_true, if_false]
          rw [alookup_cons, alookup_cons]
          cases hav : (a == v) with
          | true => simp [hav]
          | false => simp only [hav, Bool.false_eq_true, if_false]; exact ih

lemma amodify_keys {β : Type} (m : List (String × β)) (k : String) (f : β → β) :
    (amodify m k f).map Prod.fst = m.map Prod.fst := by
  induction m with
  | nil => rfl
  | cons p t ih =>
      obtain ⟨a, b⟩ := p
      rw [amodify_cons]
      cases hak : (a == k) with
      | true => simp only [hak, if_true, List.map_cons, ih]
      | false =>
          simp only [hak, Bool.false_eq_true, if_false, List.map_cons, ih]

/-- A successful lookup means the key is among the map's keys. -/
lemma mem_keys_of_alookup {β : Type} (m : List (String × β)) (v : String)
    (d : β) (h : alookup m v = some d) : v ∈ m.map Prod.fst := by
  induction m with
  | nil => simp [alookup] at h
  | cons p t ih =>
      obtain ⟨a, b⟩ := p
      rw [alookup_cons] at h
      by_cases hav : a = v
      · subst hav; simp
      · rw [if_neg (by simpa using hav)] at h
        simp only [List.map_cons, List.mem_cons]
        exact Or.inr (ih h)

/-- With nodup keys, a member pair is what lookup returns. -/
lemma alookup_of_mem_nodup {β : Type} (m : List (String × β)) (k : String)
    (v : β) (hnd : (m.map Prod.fst).Nodup) (hm : (k, v) ∈ m) :
    alookup m k = some v := by
  induction m with
  | nil => simp at hm
  | cons p t ih =>
      obtain ⟨a, b⟩ := p
      simp only [List.map_cons, List.nodup_cons] at hnd
      rcases List.mem_cons.mp hm with hh | ht
      · injection hh with hka hvb
        subst hka; subst hvb
        rw [alookup_cons, if_pos (by simp)]
      · have hak : a ≠ k := by
          intro hrfl
          subst hrfl
          exact hnd.1 (by simpa using List.mem_map_of_mem Prod.fst ht)
        rw [alookup_cons, if_neg (by simpa using hak)]
        exact ih hnd.2 ht

/-- Stable insertion permutes to consing. -/
lemma insertStable_perm {α : Type} (lt : α → α → Bool) (x : α) (l : List α) :
    (insertStable lt x l).Perm (x :: l) := by
  induction l with
  | nil => simp [insertStable]
  | cons y ys ih =>
      simp only [insertStable]
      by_cases h : lt x y
      · rw [if_pos h]
      · rw [if_neg h]
        exact (List.Perm.cons y ih).trans (List.Perm.swap x y ys)

/-- The stable sort is a permutation of its input. -/
lemma sortStable_perm {α : Type} (lt : α → α → Bool) (l : List α) :
    (sortStable lt l).Perm l := by
  suffices h : ∀ acc : List α,
      (l.foldl (fun acc x => insertStable lt x acc) acc).Perm (acc ++ l) by
    simpa using h []
  induction l with
  | nil => intro acc; simp
  | cons x xs ih =>
      intro acc
      simp only [List.foldl_cons]
      refine (ih (insertStable lt x acc)).trans ?_
      have h1 : (insertStable lt x acc ++ xs).Perm ((x :: acc) ++ xs) :=
        (insertStable_perm lt x acc).append_right xs
      refine h1.trans ?_
      simpa using List.perm_middle.symm

lemma dedupFirst_go (l : List String) :
    ∀ acc : List String, (acc ++ l).Nodup →
      l.foldl (fun acc i => if i ∈ acc then acc else acc ++ [i]) acc = acc ++ l := by
  induction l with
  | nil => intro acc _; simp
  | cons x xs ih =>
      intro acc hacc
      have hx : x ∉ acc := by
        intro hmem
        rcases List.nodup_append.mp hacc with ⟨_, _, hdisj⟩
        exact hdisj hmem (by simp)
      simp only [List.foldl_cons, if_neg hx]
      rw [List.append_cons] at hacc
      rw [ih (acc ++ [x]) hacc]
      simp

/-- `dedupFirst` of a duplicate-free list is the list itself. -/
lemma dedupFirst_eq_self (l : List String) (h : l.Nodup) : dedupFirst l = l := by
  have := dedupFirst_go l [] (by simpa using h)
  simpa [dedupFirst] using this

/-- The attacker post-pass permutes its input. -/
lemma attackerLastPass_perm (hosts : List Host) (l : List String) :
    (attackerLastPass hosts l).Perm l := by
  show (l.filter (fun hid => !(decide (hid ∈ l.filter (isAttackerId hosts))))
      ++ l.filter (isAttackerId hosts)).Perm l
  have hcongr : l.filter (fun hid => !(hid ∈ l.filter (isAttackerId hosts)))
      = l.filter (fun hid => !(isAttackerId hosts hid)) := by
    apply List.filter_congr
    intro x hx
    by_cases hatt : isAttackerId hosts x
    · simp [hatt, List.mem_filter, hx]
    · simp only [Bool.not_eq_true] at hatt
      simp [hatt, List.mem_filter]
  rw [hcongr]
  exact List.perm_append_comm.trans
    (List.filter_append_perm (isAttackerId hosts) l)

/-! ## C6 support: Kahn's algorithm produces distinct known ids -/

/-- One neighbor visit preserves the BFS invariant: processed-or-queued
ids are distinct and their in-degree cells are ≤ 0 (a cell reaches 0 at
most once, so an id is enqueued at most once). -/
lemma kahnVisit_inv (order : List String) (indeg : List (String × Int))
    (queue : List String) (nxt : String)
    (h1 : (order ++ queue).Nodup)
    (h2 : ∀ v ∈ order ++ queue, ∃ d, alookup indeg v = some d ∧ d ≤ 0) :
    ((order ++ (kahnVisit (indeg, queue) nxt).2).Nodup)
    ∧ (∀ v ∈ order ++ (kahnVisit (indeg, queue) nxt).2,
        ∃ d, alookup (kahnVisit (indeg, queue) nxt).1 v = some d ∧ d ≤ 0)
    ∧ (kahnVisit (indeg, queue) nxt).1.map Prod.fst = indeg.map Prod.fst := by
  have hfst : (kahnVisit (indeg, queue) nxt).1
      = amodify indeg nxt (fun d => d - 1) := by
    unfold kahnVisit
    by_cases hc : (alookup (amodify indeg nxt (fun d => d - 1)) nxt == some 0) = true
    · simp [hc]
    · simp [hc]
  cases hc : (alookup (amodify indeg nxt (fun d => d - 1)) nxt == some 0) with
  | true =>
      have hsnd : (kahnVisit (indeg, queue) nxt).2 = queue ++ [nxt] := by
        unfold kahnVisit; simp [hc]
      have hnotmem : nxt ∉ order ++ queue := by
        intro hmem
        obtain ⟨d, hd, hdle⟩ := h2 nxt hmem
        have hlk : alookup (amodify indeg nxt (fun d => d - 1)) nxt
            = some (d - 1) := by
          rw [alookup_amodify_eq, hd]; rfl
        rw [hlk] at hc
        have : d - 1 = 0 := by simpa using hc
        omega
      refine ⟨?_, ?_, hfst ▸ amodify_keys indeg nxt _⟩
      · rw [hsnd, ← List.append_assoc]
        exact List.nodup_append.mpr
          ⟨h1, List.nodup_singleton nxt, fun x hx hx1 => by
            rw [List.mem_singleton.mp hx1] at hx; exact hnotmem hx⟩
      · intro v hv
        rw [hsnd, ← List.append_assoc] at hv
        rcases List.mem_append.mp hv with hold | hnew
        · have hne : v ≠ nxt := fun e => hnotmem (e ▸ hold)
          obtain ⟨d, hd, hdle⟩ := h2 v hold
          exact ⟨d, by rw [hfst, alookup_amodify_ne _ _ _ _ hne]; exact hd, hdle⟩
        · rw [List.mem_singleton.mp hnew]
          refine ⟨0, ?_, le_refl 0⟩
          rw [hfst]
          simpa using hc
  | false =>
      have hsnd : (kahnVisit (indeg, queue) nxt).2 = queue := by
        unfold kahnVisit; simp [hc]
      refine ⟨by rw [hsnd]; exact h1, ?_, by rw [hfst]; exact amodify_keys indeg nxt _⟩
      intro v hv
      rw [hsnd] at hv
      by_cases hveq : v = nxt
      · subst hveq
        obtain ⟨d, hd, hdle⟩ := h2 v hv
        refine ⟨d - 1, ?_, by omega⟩
        rw [hfst, alookup_amodify_eq, hd]; rfl
      · obtain ⟨d, hd, hdle⟩ := h2 v hv
        exact ⟨d, by rw [hfst, alookup_amodify_ne _ _ _ _ hveq]; exact hd, hdle⟩

/-- The whole neighbor fold preserves the BFS invariant. -/
lemma kahnVisits_inv (order : List String) (neighbors : List String) :
    ∀ (indeg : List (String × Int)) (queue : List String),
      (order ++ queue).Nodup →
      (∀ v ∈ order ++ queue, ∃ d, alookup indeg v = some d ∧ d ≤ 0) →
      ((order ++ (neighbors.foldl kahnVisit (indeg, queue)).2).Nodup)
      ∧ (∀ v ∈ order ++ (neighbors.foldl kahnVisit (indeg, queue)).2,
          ∃ d, alookup (neighbors.foldl kahnVisit (indeg, queue)).1 v = some d ∧ d ≤ 0)
      ∧ (neighbors.foldl kahnVisit (indeg, queue)).1.map Prod.fst
          = indeg.map Prod.fst := by
  induction neighbors with
  | nil => intro indeg queue h1 h2; exact ⟨h1, h2, rfl⟩
  | cons n ns ih =>
      intro indeg queue h1 h2
      obtain ⟨j1, j2, j3⟩ := kahnVisit_inv order indeg queue n h1 h2
      have heta : (kahnVisit (indeg, queue) n)
          = ((kahnVisit (indeg, queue) n).1, (kahnVisit (indeg, queue) n).2) := rfl
      have hfold : (n :: ns).foldl kahnVisit (indeg, queue)
          = ns.foldl kahnVisit
              ((kahnVisit (indeg, queue) n).1, (kahnVisit (indeg, queue) n).2) := by
        rw [List.foldl_cons, ← heta]
      rw [hfold]
      obtain ⟨r1, r2, r3⟩ := ih _ _ j1 j2
      exact ⟨r1, r2, r3.trans j3⟩

/-- The Kahn loop never emits a duplicate and never emits an unknown id. -/
lemma kahnLoop_inv (adj : List (String × List String)) (K : List String) :
    ∀ (fuel : Nat) (indeg : List (String × Int)) (queue order : List String),
      (order ++ queue).Nodup →
      (∀ v ∈ order ++ queue, ∃ d, alookup indeg v = some d ∧ d ≤ 0) →
      indeg.map Prod.fst = K →
      (kahnLoop adj fuel indeg queue order).Nodup
      ∧ ∀ v ∈ kahnLoop adj fuel indeg queue order, v ∈ K := by
  intro fuel
  induction fuel with
  | zero =>
      intro indeg queue order h1 h2 hK
      refine ⟨List.Nodup.of_append_left h1, fun v hv => ?_⟩
      obtain ⟨d, hd, _⟩ := h2 v (List.mem_append.mpr (Or.inl hv))
      exact hK ▸ mem_keys_of_alookup indeg v d hd
  | succ fuel ih =>
      intro indeg queue order h1 h2 hK
      cases queue with
      | nil =>
          refine ⟨by simpa using h1, fun v hv => ?_⟩
          obtain ⟨d, hd, _⟩ := h2 v (by simpa using hv)
          exact hK ▸ mem_keys_of_alookup indeg v d hd
      | cons cur rest =>
          have h1' : ((order ++ [cur]) ++ rest).Nodup := by
            rw [← List.append_cons]; exact h1
          have h2' : ∀ v ∈ (order ++ [cur]) ++ rest,
              ∃ d, alookup indeg v = some d ∧ d ≤ 0 := by
            intro v hv
            exact h2 v (by rw [List.append_cons]; exact hv)
          obtain ⟨j1, j2, j3⟩ :=
            kahnVisits_inv (order ++ [cur]) ((alookup adj cur).getD [])
              indeg rest h1' h2'
          have hloop : kahnLoop adj (fuel + 1) indeg (cur :: rest) order
              = kahnLoop adj fuel
                  (((alookup adj cur).getD []).foldl kahnVisit (indeg, rest)).1
                  (((alookup adj cur).getD []).foldl kahnVisit (indeg, rest)).2
                  (order ++ [cur]) := rfl
          rw [hloop]
          exact ih _ _ _ j1 j2 (j3.trans hK)

/-- `topoSort` returns pairwise-distinct host ids. -/
lemma topoSort_nodup_subset (hostIds : List String)
    (adj : List (String × List String)) (indeg : List (String × Int))
    (hK : indeg.map Prod.fst = hostIds) (hnd : hostIds.Nodup) :
    (topoSort hostIds adj indeg).Nodup
    ∧ ∀ v ∈ topoSort hostIds adj indeg, v ∈ hostIds := by
  unfold topoSort
  apply kahnLoop_inv adj hostIds (hostIds.length + 1) indeg _ []
  · have hsub : ((indeg.filter (fun p => p.2 == 0)).map (·.1)).Sublist
        (indeg.map Prod.fst) :=
      List.Sublist.map _ (List.filter_sublist indeg)
    simpa using List.Nodup.sublist hsub (hK ▸ hnd)
  · intro v hv
    simp only [List.nil_append, List.mem_map] at hv
    obtain ⟨p, hp, hpv⟩ := hv
    rcases List.mem_filter.mp hp with ⟨hpm, hp0⟩
    have hp0' : p.2 = 0 := by simpa using hp0
    refine ⟨0, ?_, le_refl 0⟩
    have : (v, (0 : Int)) ∈ indeg := by
      have : p = (v, (0 : Int)) := by
        obtain ⟨pa, pb⟩ := p
        simp only at hpv hp0'
        rw [hpv, hp0']
      exact this ▸ hpm
    exact alookup_of_mem_nodup indeg v 0 (hK ▸ hnd) this
  · exact hK

/-! ## C6 support: the planned order is a permutation of the host ids -/

lemma stepDep_indeg_keys (hostIds : List String) (hid : String)
    (st : List (String × List String) × List (String × Int) × List String)
    (dep : String) :
    (stepDep hostIds hid st dep).2.1.map Prod.fst = st.2.1.map Prod.fst := by
  obtain ⟨adj, indeg, errs⟩ := st
  unfold stepDep
  dsimp only
  by_cases h1 : dep ∈ hostIds
  · rw [if_pos h1]
    by_cases h2 : hid ∈ (alookup adj dep).getD []
    · rw [if_pos h2]
    · rw [if_neg h2]
      show (amodify indeg hid (fun d => d + 1)).map Prod.fst = indeg.map Prod.fst
      exact amodify_keys indeg hid _
  · rw [if_neg h1]

lemma stepHostDeps_indeg_keys (hostIds : List String)
    (st : List (String × List String) × List (String × Int) × List String)
    (h : Host) :
    (stepHostDeps hostIds st h).2.1.map Prod.fst = st.2.1.map Prod.fst := by
  unfold stepHostDeps
  cases hid : h.id with
  | none => rfl
  | some i =>
      cases ht : strTruthy (some i) with
      | false => rfl
      | true =>
          clear hid ht
          induction h.depends_on generalizing st with
          | nil => rfl
          | cons d ds ih =>
              simp only [List.foldl_cons]
              exact (ih _).trans (stepDep_indeg_keys hostIds i st d)

lemma buildDeps_indeg_keys (hosts : List Host) (hostIds : List String) :
    (buildDeps hosts hostIds).2.1.map Prod.fst = hostIds := by
  unfold buildDeps
  suffices hgen : ∀ st : List (String × List String) × List (String × Int) × List String,
      (hosts.foldl (stepHostDeps hostIds) st).2.1.map Prod.fst
        = st.2.1.map Prod.fst by
    rw [hgen]
    simp [Function.comp_def]
  induction hosts with
  | nil => intro st; rfl
  | cons h t ih =>
      intro st
      simp only [List.foldl_cons]
      exact (ih _).trans (stepHostDeps_indeg_keys hostIds st h)

/-- In a duplicate-free `filterMap`, distinct list members cannot map to
the same value. -/
lemma nodup_filterMap_unique {α β : Type} (f : α → Option β) (l : List α)
    (hnd : (l.filterMap f).Nodup) (a b : α) (ha : a ∈ l) (hb : b ∈ l)
    (v : β) (hfa : f a = some v) (hfb : f b = some v) : a = b := by
  induction l with
  | nil => simp at ha
  | cons x t ih =>
      rw [List.filterMap_cons] at hnd
      rcases List.mem_cons.mp ha with rfl | hat
      · rcases List.mem_cons.mp hb with rfl | hbt
        · rfl
        · exfalso
          rw [hfa] at hnd
          rcases List.nodup_cons.mp hnd with ⟨hvnot, _⟩
          exact hvnot (List.mem_filterMap.mpr ⟨b, hbt, hfb⟩)
      · rcases List.mem_cons.mp hb with rfl | hbt
        · exfalso
          rw [hfb] at hnd
          rcases List.nodup_cons.mp hnd with ⟨hvnot, _⟩
          exact hvnot (List.mem_filterMap.mpr ⟨a, hat, hfa⟩)
        · cases hfx : f x with
          | none => rw [hfx] at hnd; exact ih hnd hat hbt
          | some w =>
              rw [hfx] at hnd
              exact ih (List.nodup_cons.mp hnd).2 hat hbt

/-- Under truthy ids, the planner's id extraction is plain `Host.id`. -/
lemma filterMap_truthy_eq (hosts : List Host)
    (hids : ∀ h ∈ hosts, strTruthy h.id = true) :
    hosts.filterMap (fun h => if strTruthy h.id then h.id else none)
      = hosts.filterMap Host.id := by
  induction hosts with
  | nil => rfl
  | cons h t ih =>
      have hh := hids h (by simp)
      rw [List.filterMap_cons, List.filterMap_cons, hh, if_pos rfl]
      cases hid : h.id with
      | none => exact ih (fun g hg => hids g (by simp [hg]))
      | some i => rw [ih (fun g hg => hids g (by simp [hg]))]

/-- The order emitted by the planner (before the attacker post-pass) is
a permutation of the hosts' ids. -/
lemma orderedPre_perm (s : ScenarioDoc)
    (hids : ∀ h ∈ s.hosts, strTruthy h.id = true)
    (hnodup : (s.hosts.filterMap Host.id).Nodup) :
    (orderedPre s).Perm (s.hosts.filterMap Host.id) := by
  have hhostIds : hostIdsOf s.hosts = s.hosts.filterMap Host.id := by
    unfold hostIdsOf
    rw [filterMap_truthy_eq s.hosts hids]
    exact dedupFirst_eq_self _ hnodup
  unfold orderedPre
  by_cases hempty : (topoOrderOf s).isEmpty
  · rw [hempty]
    simp only [Bool.not_true, Bool.false_eq_true, if_false]
    refine (List.Perm.filterMap _ (sortStable_perm _ s.hosts)).trans ?_
    rw [filterMap_truthy_eq s.hosts hids]
  · have hempty' : (!(topoOrderOf s).isEmpty) = true := by
      cases h : (topoOrderOf s).isEmpty with
      | true => exact absurd h hempty
      | false => rfl
    rw [hempty']
    simp only [if_true]
    refine (sortStable_perm _ (topoOrderOf s)).trans ?_
    -- the topo path ran and completed: no cycle, full length
    have hcyc : cycleDetected s = false := by
      cases h : cycleDetected s with
      | false => rfl
      | true => exact absurd (by unfold topoOrderOf; rw [h]; rfl) hempty
    have hto : topoOrderOf s = topoOrder0Of s := by
      unfold topoOrderOf; rw [hcyc]; simp
    have hany : anyDepsOf s = true := by
      cases h : anyDepsOf s with
      | true => rfl
      | false =>
          exfalso
          apply hempty
          unfold topoOrderOf topoOrder0Of
          rw [h, hcyc]
          simp
    have hlen : (topoOrder0Of s).length = (hostIdsOf s.hosts).length := by
      have := hcyc
      unfold cycleDetected at this
      rw [hany] at this
      simpa using this
    have hnd' : (hostIdsOf s.hosts).Nodup := by rw [hhostIds]; exact hnodup
    have htopo := topoSort_nodup_subset (hostIdsOf s.hosts)
      (buildDeps s.hosts (hostIdsOf s.hosts)).1
      (buildDeps s.hosts (hostIdsOf s.hosts)).2.1
      (buildDeps_indeg_keys s.hosts (hostIdsOf s.hosts)) hnd'
    have horder : topoOrder0Of s
        = topoSort (hostIdsOf s.hosts) (buildDeps s.hosts (hostIdsOf s.hosts)).1
            (buildDeps s.hosts (hostIdsOf s.hosts)).2.1 := by
      unfold topoOrder0Of; rw [hany]; simp
    have hperm : (topoOrder0Of s).Perm (hostIdsOf s.hosts) := by
      refine List.Subperm.perm_of_length_le ?_ (le_of_eq hlen.symm)
      refine List.Nodup.subperm ?_ ?_
      · rw [horder]; exact htopo.1
      · intro v hv
        rw [horder] at hv
        exact htopo.2 v hv
    rw [hto]
    exact hperm.trans (hhostIds ▸ List.Perm.refl _)

/-- The final ordered components are a permutation of the hosts' ids. -/
lemma ordered_components_perm (s : ScenarioDoc)
    (hids : ∀ h ∈ s.hosts, strTruthy h.id = true)
    (hnodup : (s.hosts.filterMap Host.id).Nodup) :
    (planScenarioDoc s).ordered_components.Perm (s.hosts.filterMap Host.id) := by
  have : (planScenarioDoc s).ordered_components
      = attackerLastPass s.hosts (orderedPre s) := rfl
  rw [this]
  exact (attackerLastPass_perm s.hosts (orderedPre s)).trans
    (orderedPre_perm s hids hnodup)

/-! ## C6 — operation counts of a greenfield dry run -/

lemma countP_flatMap {α β : Type} (p : β → Bool) (l : List α) (F : α → List β) :
    (l.flatMap F).countP p = (l.map (fun x => (F x).countP p)).sum := by
  induction l with
  | nil => rfl
  | cons x t ih => simp [List.flatMap_cons, List.countP_append, ih]

lemma sum_map_const {α : Type} (l : List α) (g : α → Nat) (c : Nat)
    (h : ∀ x ∈ l, g x = c) : (l.map g).sum = c * l.length := by
  induction l with
  | nil => simp
  | cons x t ih =>
      simp only [List.map_cons, List.sum_cons, List.length_cons]
      rw [h x (by simp), ih (fun y hy => h y (by simp [hy]))]
      ring

lemma networkCreateOp_type (n : String) (sn : Option String) :
    (networkCreateOp n sn).type = "network.create" := rfl

lemma networkConnectOp_type (c : String) (n : Option String) (i : Option String) :
    (networkConnectOp c n i).type = "network.connect" := rfl

lemma containerRunOp_type (name : String) (host : Host) (n : Option String)
    (i : Option String) (ports : List PortAlloc) (isolate : Bool) :
    (containerRunOp name host n i ports isolate).type = "container.run" := rfl

lemma waitForHealthOp_type (c : String) :
    (waitForHealthOp c).type = "healthcheck.wait" := rfl

/-- `find?` returns the designated element when it is the only one
satisfying the predicate. -/
lemma find?_eq_of_mem_unique {α : Type} (l : List α) (p : α → Bool) (a : α)
    (ha : a ∈ l) (hpa : p a = true)
    (huniq : ∀ b ∈ l, p b = true → b = a) : l.find? p = some a := by
  induction l with
  | nil => simp at ha
  | cons x t ih =>
      rcases List.mem_cons.mp ha with rfl | hat
      · rw [List.find?_cons_of_pos _ hpa]
      · by_cases hpx : p x = true
        · have hxa : x = a := huniq x (by simp) hpx
          subst hxa
          rw [List.find?_cons_of_pos _ hpx]
        · rw [List.find?_cons_of_neg _ (by simpa using hpx)]
          exact ih hat (fun b hb hpb => huniq b (by simp [hb]) hpb)

/-- With unique ids, `hosts_by_id` lookup returns the host itself. -/
lemma hostsById_self (hosts : List Host)
    (hnodup : (hosts.filterMap Host.id).Nodup) (h : Host) (i : String)
    (hmem : h ∈ hosts) (hid : h.id = some i) :
    hostsById hosts i = some h := by
  unfold hostsById
  apply find?_eq_of_mem_unique
  · exact List.mem_reverse.mpr hmem
  · simp [hid]
  · intro b hb hpb
    have hbid : b.id = some i := by simpa using hpb
    exact nodup_filterMap_unique Host.id hosts hnodup b h
      (List.mem_reverse.mp hb) hmem i hbid hid

/-- Per-host emitted operations in a greenfield dry run: one
`container.run`, no `network.create`, and one `network.connect` per
extra network. -/
lemma hostEntryOps_none_counts ( scenario : ScenarioDoc) (plan : PlanResult)
    (hid : String) (h : Host) (hh : hostsById scenario.hosts hid = some h)
    (hn : h.networks ≠ []) :
    ((hostEntryOps none "skip" false scenario plan hid).1.countP
        (fun o => o.type == "container.run") = 1)
    ∧ ((hostEntryOps none "skip" false scenario plan hid).1.countP
        (fun o => o.type == "network.create") = 0)
    ∧ ((hostEntryOps none "skip" false scenario plan hid).1.countP
        (fun o => o.type == "network.connect") = h.networks.length - 1) := by
  cases hnets : h.networks with
  | nil => exact absurd hnets hn
  | cons primary extras =>
      have hops : (hostEntryOps none "skip" false scenario plan hid).1
          = [containerRunOp hid h primary.network_id primary.ip_address
              ((alookup plan.resource_allocation hid).getD
                ⟨none, none, none, []⟩).ports false]
            ++ (if h.healthcheck.isSome then [waitForHealthOp hid] else [])
            ++ extras.map (fun extra =>
                networkConnectOp hid extra.network_id extra.ip_address) := by
        simp only [hostEntryOps, containerExists, hh, hnets]
        simp
      rw [hops]
      have hconn : (extras.map (fun extra =>
          networkConnectOp hid extra.network_id extra.ip_address)).countP
            (fun o => o.type == "network.connect") = extras.length := by
        rw [← List.length_map extras (fun extra =>
          networkConnectOp hid extra.network_id extra.ip_address)]
        apply List.countP_eq_length.mpr
        intro a ha
        obtain ⟨extra, _, rfl⟩ := List.mem_map.mp ha
        rfl
      have hc1 : (extras.map (fun extra =>
          networkConnectOp hid extra.network_id extra.ip_address)).countP
            (fun o => o.type == "container.run") = 0 := by
        apply List.countP_eq_zero.mpr
        intro a ha
        obtain ⟨extra, _, rfl⟩ := List.mem_map.mp ha
        simp [networkConnectOp_type]
      have hc2 : (extras.map (fun extra =>
          networkConnectOp hid extra.network_id extra.ip_address)).countP
            (fun o => o.type == "network.create") = 0 := by
        apply List.countP_eq_zero.mpr
        intro a ha
        obtain ⟨extra, _, rfl⟩ := List.mem_map.mp ha
        simp [networkConnectOp_type]
      cases hhc : h.healthcheck.isSome with
      | true =>
          simp [List.countP_append, List.countP_cons, List.countP_nil,
            hconn, hc1, hc2, containerRunOp_type, waitForHealthOp_type]
      | false =>
          simp [List.countP_append, List.countP_cons, List.countP_nil,
            hconn, hc1, hc2, containerRunOp_type, waitForHealthOp_type]

lemma find?_isSome_iff_mem_keys {β : Type} (m : List (String × β)) (k : String) :
    (m.find? (fun p => p.1 == k)).isSome = true ↔ k ∈ m.map Prod.fst := by
  rw [List.find?_isSome]
  constructor
  · rintro ⟨x, hx, hpx⟩
    have hxk : x.1 = k := by simpa using hpx
    exact hxk ▸ List.mem_map_of_mem Prod.fst hx
  · intro hk
    obtain ⟨p, hp, hpk⟩ := List.mem_map.mp hk
    exact ⟨p, hp, by simp [hpk]⟩

lemma ainsert_of_not_mem {β : Type} (m : List (String × β)) (k : String) (v : β)
    (h : k ∉ m.map Prod.fst) : ainsert m k v = m ++ [(k, v)] := by
  unfold ainsert
  rw [if_neg]
  intro hs
  exact h ((find?_isSome_iff_mem_keys m k).mp hs)

/-- Length of the host-id extraction when every id is present. -/
lemma filterMap_length_all_isSome {α β : Type} (f : α → Option β) (l : List α)
    (h : ∀ x ∈ l, (f x).isSome = true) : (l.filterMap f).length = l.length := by
  induction l with
  | nil => rfl
  | cons x t ih =>
      rw [List.filterMap_cons]
      cases hfx : f x with
      | none =>
          have hx := h x (by simp)
          rw [hfx] at hx
          simp at hx
      | some v =>
          simp only [List.length_cons]
          rw [ih (fun y hy => h y (by simp [hy]))]

/-- The first planner loop records one topology entry per network when
network ids are present, truthy and distinct. -/
lemma buildNetworks_go_keys :
    ∀ (networks : List Network)
      (topoAcc : List (String × TopoEntry))
      (usageAcc : List (String × List String)) (errsAcc : List String),
      (∀ n ∈ networks, strTruthy n.id = true) →
      (networks.filterMap Network.id).Nodup →
      (∀ n ∈ networks, ∀ i, n.id = some i → i ∉ topoAcc.map Prod.fst) →
      ((networks.foldl stepNetwork (topoAcc, usageAcc, errsAcc)).1).map Prod.fst
        = topoAcc.map Prod.fst ++ networks.filterMap Network.id := by
  intro networks
  induction networks with
  | nil => intro topoAcc usageAcc errsAcc _ _ _; simp
  | cons n t ih =>
      intro topoAcc usageAcc errsAcc htr hnd hdisj
      have hn := htr n (by simp)
      cases hni : n.id with
      | none => rw [hni] at hn; simp [strTruthy] at hn
      | some i =>
          have hstep : stepNetwork (topoAcc, usageAcc, errsAcc) n
              = (ainsert topoAcc i ⟨n.subnet, []⟩, ainsert usageAcc i [], errsAcc) := by
            unfold stepNetwork
            rw [hni] at hn ⊢
            rw [hn]
          have hfresh : i ∉ topoAcc.map Prod.fst := hdisj n (by simp) i hni
          have hkeys : (ainsert topoAcc i ⟨n.subnet, []⟩).map Prod.fst
              = topoAcc.map Prod.fst ++ [i] := by
            rw [ainsert_of_not_mem _ _ _ hfresh]; simp
          have hndt : (t.filterMap Network.id).Nodup := by
            rw [List.filterMap_cons, hni] at hnd
            exact (List.nodup_cons.mp hnd).2
          have hinot : i ∉ t.filterMap Network.id := by
            rw [List.filterMap_cons, hni] at hnd
            exact (List.nodup_cons.mp hnd).1
          simp only [List.foldl_cons, hstep]
          rw [ih _ _ _ (fun m hm => htr m (by simp [hm])) hndt ?_]
          · rw [hkeys, List.filterMap_cons, hni]
            simp
          · intro m hm j hj
            rw [hkeys]
            intro hmem
            rcases List.mem_append.mp hmem with hold | hnew
            · exact hdisj m (by simp [hm]) j hj hold
            · rw [List.mem_singleton.mp hnew] at hj
              exact hinot (List.mem_filterMap.mpr ⟨m, hm, hj⟩)

/-- The second planner loop never changes the set of topology entries. -/
lemma stepNetRef_topo_len (nets : List Network) (hid : String)
    (st : List (String × TopoEntry) × List (String × List String) × List String)
    (r : NetRef) : ((stepNetRef nets hid st r).1).length = st.1.length := by
  obtain ⟨topo, usage, errs⟩ := st
  unfold stepNetRef
  dsimp only
  cases hni : r.network_id with
  | none => rfl
  | some nid =>
      cases htr : strTruthy (some nid) with
      | false => rfl
      | true =>
          dsimp only
          by_cases hmem : nid ∈ networkIds nets
          · rw [if_pos hmem]
            simp [amodify, List.length_map]
          · rw [if_neg hmem]

lemma populateTopology_len (nets : List Network) (hosts : List Host) :
    ∀ (topo : List (String × TopoEntry)) (usage : List (String × List String)),
      ((populateTopology nets hosts topo usage).1).length = topo.length := by
  unfold populateTopology
  suffices hgen : ∀ (hostsRest : List Host)
      (st : List (String × TopoEntry) × List (String × List String) × List String),
      ((hostsRest.foldl (fun st h =>
        match h.id, strTruthy h.id with
        | some hid, true => h.networks.foldl (stepNetRef nets hid) st
        | _, _ => (st.1, st.2.1, st.2.2 ++ ["Host missing 'id'"])) st).1).length
        = st.1.length by
    intro topo usage
    exact hgen hosts (topo, usage, [])
  intro hostsRest
  induction hostsRest with
  | nil => intro st; rfl
  | cons h t ih =>
      intro st
      simp only [List.foldl_cons]
      refine (ih _).trans ?_
      cases hhid : h.id with
      | none => rfl
      | some i =>
          cases htr : strTruthy (some i) with
          | false => rfl
          | true =>
              suffices hinner : ∀ (refs : List NetRef)
                  (st' : List (String × TopoEntry) × List (String × List String) × List String),
                  ((refs.foldl (stepNetRef nets i) st').1).length = st'.1.length by
                exact hinner h.networks st
              intro refs
              induction refs with
              | nil => intro st'; rfl
              | cons r rs ihr =>
                  intro st'
                  simp only [List.foldl_cons]
                  exact (ihr _).trans (stepNetRef_topo_len nets i st' r)

lemma isSome_of_strTruthy (o : Option String) (h : strTruthy o = true) :
    o.isSome = true := by
  cases o with
  | none => simp [strTruthy] at h
  | some s => rfl

/-- Transport a per-id function along the id extraction. -/
lemma map_over_filterMap_ids (full : List Host) (g : String → Nat) (f : Host → Nat)
    (hg : ∀ h ∈ full, ∀ i, h.id = some i → g i = f h) :
    ∀ sub : List Host, (∀ h ∈ sub, h ∈ full) → (∀ h ∈ sub, h.id.isSome = true) →
      (sub.filterMap Host.id).map g = sub.map f := by
  intro sub
  induction sub with
  | nil => intro _ _; rfl
  | cons h t ih =>
      intro hsub hsome
      rw [List.filterMap_cons]
      cases hhid : h.id with
      | none =>
          have := hsome h (by simp)
          rw [hhid] at this
          simp at this
      | some i =>
          rw [List.map_cons, List.map_cons,
            hg h (hsub h (by simp)) i hhid,
            ih (fun x hx => hsub x (by simp [hx]))
              (fun x hx => hsome x (by simp [hx]))]

/-- C6: confirmed.  For a well-formed scenario — every host and network
carries a (truthy) id, ids are unique within their kind, and every host
joins at least one network (its schema requires `minItems: 1`) — the
greenfield dry run in skip mode emits exactly one `container.run` per
host, one `network.create` per network, and Σ max(0, |host.networks|−1)
`network.connect` operations. -/
theorem dry_run_op_counts (s : ScenarioDoc)
    (hids : ∀ h ∈ s.hosts, strTruthy h.id = true)
    (hnodup : (s.hosts.filterMap Host.id).Nodup)
    (hnids : ∀ n ∈ s.networks, strTruthy n.id = true)
    (hnnodup : (s.networks.filterMap Network.id).Nodup)
    (hnets : ∀ h ∈ s.hosts, h.networks ≠ []) :
    ((provisionOps (planScenarioDoc s) s none "skip" false).ops.countP
        (fun o => o.type == "container.run") = s.hosts.length)
    ∧ ((provisionOps (planScenarioDoc s) s none "skip" false).ops.countP
        (fun o => o.type == "network.create") = s.networks.length)
    ∧ ((provisionOps (planScenarioDoc s) s none "skip" false).ops.countP
        (fun o => o.type == "network.connect")
          = (s.hosts.map (fun h => h.networks.length - 1)).sum) := by
  have hops : (provisionOps (planScenarioDoc s) s none "skip" false).ops
      = ((planScenarioDoc s).network_topology.flatMap
          (fun e => (netEntryOps none "skip" e).1))
        ++ ((planScenarioDoc s).ordered_components.flatMap
          (fun hid => (hostEntryOps none "skip" false s (planScenarioDoc s) hid).1)) := by
    unfold provisionOps
    dsimp only
    rw [List.flatMap_map, List.flatMap_map]
  -- network-chunk per-entry counts
  have hnC : ∀ e : String × TopoEntry, ((netEntryOps none "skip" e).1).countP
      (fun o => o.type == "network.create") = 1 := by
    intro e
    rw [netEntryOps_ops_none]
    simp [List.countP_cons, networkCreateOp_type]
  have hnR : ∀ e : String × TopoEntry, ((netEntryOps none "skip" e).1).countP
      (fun o => o.type == "container.run") = 0 := by
    intro e
    rw [netEntryOps_ops_none]
    simp [List.countP_cons, networkCreateOp_type]
  have hnX : ∀ e : String × TopoEntry, ((netEntryOps none "skip" e).1).countP
      (fun o => o.type == "network.connect") = 0 := by
    intro e
    rw [netEntryOps_ops_none]
    simp [List.countP_cons, networkCreateOp_type]
  -- topology size = number of networks
  have hnetlen : (planScenarioDoc s).network_topology.length = s.networks.length := by
    have h1 : (planScenarioDoc s).network_topology
        = (populateTopology s.networks s.hosts
            (buildNetworks s.networks).1 (buildNetworks s.networks).2.1).1 := rfl
    rw [h1, populateTopology_len]
    have h2 : ((buildNetworks s.networks).1).map Prod.fst
        = s.networks.filterMap Network.id := by
      have := buildNetworks_go_keys s.networks [] [] [] hnids hnnodup
        (by intro n _ i _; simp)
      simpa [buildNetworks] using this
    have h3 : ((buildNetworks s.networks).1).length
        = (s.networks.filterMap Network.id).length := by
      rw [← List.length_map ((buildNetworks s.networks).1) Prod.fst, h2]
    rw [h3]
    exact filterMap_length_all_isSome Network.id s.networks
      (fun n hn => isSome_of_strTruthy n.id (hnids n hn))
  -- every planned id resolves to its unique host
  have hperm := ordered_components_perm s hids hnodup
  have hlookup : ∀ hid ∈ (planScenarioDoc s).ordered_components,
      ∃ h, hostsById s.hosts hid = some h ∧ h ∈ s.hosts ∧ h.id = some hid := by
    intro hid hmem
    have hmem' : hid ∈ s.hosts.filterMap Host.id := hperm.mem_iff.mp hmem
    obtain ⟨h, hh, hhid⟩ := List.mem_filterMap.mp hmem'
    exact ⟨h, hostsById_self s.hosts hnodup h hid hh hhid, hh, hhid⟩
  have hordlen : (planScenarioDoc s).ordered_components.length = s.hosts.length := by
    rw [hperm.length_eq]
    exact filterMap_length_all_isSome Host.id s.hosts
      (fun h hh => isSome_of_strTruthy h.id (hids h hh))
  refine ⟨?_, ?_, ?_⟩
  · -- container.run count
    rw [hops, List.countP_append, countP_flatMap, countP_flatMap,
      sum_map_const _ _ 0 (fun e _ => hnR e),
      sum_map_const _ _ 1 ?_]
    · rw [hordlen]; ring
    · intro hid hmem
      obtain ⟨h, hh, hmemh, hhid⟩ := hlookup hid hmem
      exact (hostEntryOps_none_counts s (planScenarioDoc s) hid h hh
        (hnets h hmemh)).1
  · -- network.create count
    have hhostC : ∀ hid ∈ (planScenarioDoc s).ordered_components,
        ((hostEntryOps none "skip" false s (planScenarioDoc s) hid).1).countP
          (fun o => o.type == "network.create") = 0 := by
      intro hid hmem
      obtain ⟨h, hh, hmemh, hhid⟩ := hlookup hid hmem
      exact (hostEntryOps_none_counts s (planScenarioDoc s) hid h hh
        (hnets h hmemh)).2.1
    rw [hops, List.countP_append, countP_flatMap, countP_flatMap,
      sum_map_const _ _ 1 (fun e _ => hnC e),
      sum_map_const _ _ 0 hhostC]
    rw [hnetlen]; ring
  · -- network.connect count
    have hg : ∀ hid ∈ (planScenarioDoc s).ordered_components,
        ((hostEntryOps none "skip" false s (planScenarioDoc s) hid).1).countP
          (fun o => o.type == "network.connect")
          = (match hostsById s.hosts hid with
             | some h => h.networks.length - 1
             | none => 0) := by
      intro hid hmem
      obtain ⟨h, hh, hmemh, hhid⟩ := hlookup hid hmem
      rw [hh]
      exact (hostEntryOps_none_counts s (planScenarioDoc s) hid h hh
        (hnets h hmemh)).2.2
    rw [hops, List.countP_append, countP_flatMap, countP_flatMap,
      sum_map_const _ _ 0 (fun e _ => hnX e)]
    rw [List.map_congr_left hg]
    have hpermmap := (hperm.map (fun hid =>
      (match hostsById s.hosts hid with
       | some h => h.networks.length - 1
       | none => 0)))
    rw [hpermmap.sum_eq]
    rw [map_over_filterMap_ids s.hosts _ (fun h => h.networks.length - 1) ?_ s.hosts
      (fun h hh => hh) (fun h hh => isSome_of_strTruthy h.id (hids h hh))]
    · ring
    · intro h hh i hhid
      rw [hostsById_self s.hosts hnodup h i hh hhid]

/-- C6 witness: at the two-network healthcheck scenario the dry run
emits 1 `container.run`, 2 `network.create` and 1 `network.connect`. -/
theorem dry_run_op_counts_witness :
    ((provisionOps (planScenarioDoc hcInput) hcInput none "skip" false).ops.countP
        (fun o => o.type == "container.run") = hcInput.hosts.length)
    ∧ ((provisionOps (planScenarioDoc hcInput) hcInput none "skip" false).ops.countP
        (fun o => o.type == "network.create") = hcInput.networks.length)
    ∧ ((provisionOps (planScenarioDoc hcInput) hcInput none "skip" false).ops.countP
        (fun o => o.type == "network.connect")
          = (hcInput.hosts.map (fun h => h.networks.length - 1)).sum) :=
  dry_run_op_counts hcInput (by decide) (by decide) (by decide) (by decide)
    (by decide)

/-! ## C8 support: first characters distinguish the planner messages -/

/-- First character of a string. -/
def strHead (s : String) : Option Char := s.data.head?

lemma data_append_ne (a b : String) (h : a.data ≠ []) : (a ++ b).data ≠ [] := by
  rw [String.data_append]
  intro hc
  exact h (List.append_eq_nil.mp hc).1

lemma strHead_append (a b : String) (h : a.data ≠ []) :
    strHead (a ++ b) = strHead a := by
  unfold strHead
  rw [String.data_append]
  cases hd : a.data with
  | nil => exact absurd hd h
  | cons c cs => simp

lemma strHead_append_pair (a b : String) (h : a.data ≠ []) :
    strHead (a ++ b) = strHead a ∧ (a ++ b).data ≠ [] :=
  ⟨strHead_append a b h, data_append_ne a b h⟩

/-- Head of a `lit ++ x ++ lit` message. -/
lemma strHead_chain2 (A x B : String) (hA : A.data ≠ []) :
    strHead (A ++ x ++ B) = strHead A := by
  have s1 := strHead_append_pair A x hA
  have s2 := strHead_append_pair (A ++ x) B s1.2
  rw [s2.1, s1.1]

/-- Head of a `lit ++ x ++ lit ++ y ++ lit` message. -/
lemma strHead_chain4 (A x B y C : String) (hA : A.data ≠ []) :
    strHead (A ++ x ++ B ++ y ++ C) = strHead A := by
  have s1 := strHead_append_pair A x hA
  have s2 := strHead_append_pair (A ++ x) B s1.2
  have s3 := strHead_append_pair (A ++ x ++ B) y s2.2
  have s4 := strHead_append_pair (A ++ x ++ B ++ y) C s3.2
  rw [s4.1, s3.1, s2.1, s1.1]

lemma portConflictMsg_head (p : String) (e : Int) (pr h sv : String) :
    strHead (portConflictMsg p e pr h sv) = some 'E' := by
  unfold portConflictMsg
  have s0 : ("External port conflict: " : String).data ≠ [] := by decide
  have s1 := strHead_append_pair "External port conflict: " p s0
  have s2 := strHead_append_pair _ "/" s1.2
  have s3 := strHead_append_pair _ (toString e) s2.2
  have s4 := strHead_append_pair _ " used by '" s3.2
  have s5 := strHead_append_pair _ pr s4.2
  have s6 := strHead_append_pair _ "' and host '" s5.2
  have s7 := strHead_append_pair _ h s6.2
  have s8 := strHead_append_pair _ "' (service '" s7.2
  have s9 := strHead_append_pair _ sv s8.2
  have s10 := strHead_append_pair _ "')" s9.2
  rw [s10.1, s9.1, s8.1, s7.1, s6.1, s5.1, s4.1, s3.1, s2.1, s1.1]
  decide

/-- A generic propagation lemma: if every step only appends strings
satisfying `P` to the error component, so does the whole fold. -/
lemma foldl_errs_mem {α σ : Type} (step : σ → α → σ) (errsOf : σ → List String)
    (P : String → Prop)
    (hstep : ∀ st a m, m ∈ errsOf (step st a) → m ∈ errsOf st ∨ P m) :
    ∀ (l : List α) (st : σ) (m : String),
      m ∈ errsOf (l.foldl step st) → m ∈ errsOf st ∨ P m := by
  intro l
  induction l with
  | nil => intro st m hm; exact Or.inl hm
  | cons a t ih =>
      intro st m hm
      rcases ih (step st a) m hm with hold | hp
      · exact hstep st a m hold
      · exact Or.inr hp

/-- Errors of the first planner loop are the missing-id message. -/
lemma buildNetworks_errs (networks : List Network) :
    ∀ m ∈ (buildNetworks networks).2.2, m = "Network missing 'id'" := by
  intro m hm
  have hstep : ∀ st n m, m ∈ (stepNetwork st n).2.2 →
      m ∈ st.2.2 ∨ m = "Network missing 'id'" := by
    intro st n m hm
    obtain ⟨topo, usage, errs⟩ := st
    unfold stepNetwork at hm
    dsimp only at hm
    cases hni : n.id with
    | none =>
        rw [hni] at hm
        rcases List.mem_append.mp hm with h | h
        · exact Or.inl h
        · exact Or.inr (List.mem_singleton.mp h)
    | some i =>
        rw [hni] at hm
        cases htr : strTruthy (some i) with
        | true => rw [htr] at hm; exact Or.inl hm
        | false =>
            rw [htr] at hm
            rcases List.mem_append.mp hm with h | h
            · exact Or.inl h
            · exact Or.inr (List.mem_singleton.mp h)
  rcases foldl_errs_mem stepNetwork (·.2.2) (· = "Network missing 'id'") hstep
    networks ([], [], []) m hm with h | h
  · simp at h
  · exact h

/-- Errors of the second planner loop start with `H` or `I`. -/
lemma populateTopology_errs (nets : List Network) (hosts : List Host)
    (topo : List (String × TopoEntry)) (usage : List (String × List String)) :
    ∀ m ∈ (populateTopology nets hosts topo usage).2.2,
      strHead m = some 'H' ∨ strHead m = some 'I' := by
  have hH : (("Host '" : String)).data ≠ [] := by decide
  have hI : (("IP conflict on network '" : String)).data ≠ [] := by decide
  have hstepN : ∀ (hid : String)
      (st : List (String × TopoEntry) × List (String × List String) × List String)
      (r : NetRef) (m : String), m ∈ (stepNetRef nets hid st r).2.2 →
      m ∈ st.2.2 ∨ strHead m = some 'H' ∨ strHead m = some 'I' := by
    intro hid st r m hm
    obtain ⟨topo', usage', errs'⟩ := st
    unfold stepNetRef at hm
    dsimp only at hm
    cases hni : r.network_id with
    | none =>
        rw [hni] at hm
        rcases List.mem_append.mp hm with h | h
        · exact Or.inl h
        · rw [List.mem_singleton.mp h]
          exact Or.inr (Or.inl (strHead_chain2 "Host '" hid
            "' has network entry without 'network_id'" hH))
    | some nid =>
        rw [hni] at hm
        cases htr : strTruthy (some nid) with
        | false =>
            rw [htr] at hm
            rcases List.mem_append.mp hm with h | h
            · exact Or.inl h
            · rw [List.mem_singleton.mp h]
              exact Or.inr (Or.inl (strHead_chain2 "Host '" hid
                "' has network entry without 'network_id'" hH))
        | true =>
            rw [htr] at hm
            dsimp only at hm
            by_cases hmem : nid ∈ networkIds nets
            · rw [if_pos hmem] at hm
              cases hip : r.ip_address with
              | none =>
                  rw [hip] at hm
                  exact Or.inl hm
              | some ip =>
                  rw [hip] at hm
                  cases hipt : strTruthy (some ip) with
                  | false => rw [hipt] at hm; exact Or.inl hm
                  | true =>
                      rw [hipt] at hm
                      dsimp only at hm
                      by_cases hdup : ip ∈ (alookup usage' nid).getD []
                      · rw [if_pos hdup] at hm
                        rcases List.mem_append.mp hm with h | h
                        · exact Or.inl h
                        · rw [List.mem_singleton.mp h]
                          refine Or.inr (Or.inr ?_)
                          exact strHead_chain4 "IP conflict on network '" nid
                            "': " ip " already in use" hI
                      · rw [if_neg hdup] at hm
                        exact Or.inl hm
            · rw [if_neg hmem] at hm
              rcases List.mem_append.mp hm with h | h
              · exact Or.inl h
              · rw [List.mem_singleton.mp h]
                exact Or.inr (Or.inl (strHead_chain4 "Host '" hid
                  "' references unknown network '" nid "'" hH))
  have hstepH : ∀ (st : List (String × TopoEntry) × List (String × List String) × List String)
      (h : Host) (m : String),
      m ∈ ((fun st (h : Host) =>
        match h.id, strTruthy h.id with
        | some hid, true => h.networks.foldl (stepNetRef nets hid) st
        | _, _ => (st.1, st.2.1, st.2.2 ++ ["Host missing 'id'"])) st h).2.2 →
      m ∈ st.2.2 ∨ strHead m = some 'H' ∨ strHead m = some 'I' := by
    intro st h m hm
    dsimp only at hm
    cases hhid : h.id with
    | none =>
        rw [hhid] at hm
        rcases List.mem_append.mp hm with hh | hh
        · exact Or.inl hh
        · rw [List.mem_singleton.mp hh]
          exact Or.inr (Or.inl (by decide))
    | some i =>
        rw [hhid] at hm
        cases htr : strTruthy (some i) with
        | false =>
            rw [htr] at hm
            rcases List.mem_append.mp hm with hh | hh
            · exact Or.inl hh
            · rw [List.mem_singleton.mp hh]
              exact Or.inr (Or.inl (by decide))
        | true =>
            rw [htr] at hm
            exact foldl_errs_mem (stepNetRef nets i) (·.2.2)
              (fun m => strHead m = some 'H' ∨ strHead m = some 'I')
              (hstepN i) h.networks st m hm
  intro m hm
  unfold populateTopology at hm
  rcases foldl_errs_mem _ (·.2.2)
      (fun m => strHead m = some 'H' ∨ strHead m = some 'I')
      hstepH hosts (topo, usage, []) m hm with h | h
  · simp at h
  · exact h

/-- Errors of the dependency pass start with `H`. -/
lemma buildDeps_errs (hosts : List Host) (hostIds : List String) :
    ∀ m ∈ (buildDeps hosts hostIds).2.2, strHead m = some 'H' := by
  have hH : (("Host '" : String)).data ≠ [] := by decide
  have hstepD : ∀ (hid : String)
      (st : List (String × List String) × List (String × Int) × List String)
      (dep : String) (m : String), m ∈ (stepDep hostIds hid st dep).2.2 →
      m ∈ st.2.2 ∨ strHead m = some 'H' := by
    intro hid st dep m hm
    obtain ⟨adj, indeg, errs⟩ := st
    unfold stepDep at hm
    dsimp only at hm
    by_cases hd : dep ∈ hostIds
    · rw [if_pos hd] at hm
      by_cases hdup : hid ∈ (alookup adj dep).getD []
      · rw [if_pos hdup] at hm; exact Or.inl hm
      · rw [if_neg hdup] at hm; exact Or.inl hm
    · rw [if_neg hd] at hm
      rcases List.mem_append.mp hm with h | h
      · exact Or.inl h
      · rw [List.mem_singleton.mp h]
        exact Or.inr (strHead_chain4 "Host '" hid "' depends_on unknown host '"
          dep "'" hH)
  have hstepH : ∀ (st : List (String × List String) × List (String × Int) × List String)
      (h : Host) (m : String), m ∈ (stepHostDeps hostIds st h).2.2 →
      m ∈ st.2.2 ∨ strHead m = some 'H' := by
    intro st h m hm
    unfold stepHostDeps at hm
    cases hhid : h.id with
    | none => rw [hhid] at hm; exact Or.inl hm
    | some i =>
        rw [hhid] at hm
        cases htr : strTruthy (some i) with
        | false => rw [htr] at hm; exact Or.inl hm
        | true =>
            rw [htr] at hm
            exact foldl_errs_mem (stepDep hostIds i) (·.2.2)
              (fun m => strHead m = some 'H') (hstepD i) h.depends_on st m hm
  intro m hm
  rcases foldl_errs_mem (stepHostDeps hostIds) (·.2.2)
      (fun m => strHead m = some 'H') hstepH hosts
      (hostIds.map (fun i => (i, [])), hostIds.map (fun i => (i, (0 : Int))), [])
      m hm with h | h
  · simp at h
  · exact h

/-! ## C8 support: external-port claims and the usage-map invariant -/

/-- The port claims of one referenced service: one claim per port of the
service resolved by `service_by_id` (nothing for an unresolved id). -/
def svcClaims (services : List Service) (hid svcId : String) :
    List (String × String × SPort) :=
  match svcLookup services svcId with
  | some svc => svc.ports.map (fun p => (hid, svcId, p))
  | none => []

/-- The port claims of one host, in scan order. -/
def hostClaims (services : List Service) (h : Host) :
    List (String × String × SPort) :=
  match h.id, strTruthy h.id with
  | some hid, true => h.services.flatMap (svcClaims services hid)
  | _, _ => []

/-- Every host/service port claim of the scenario, in the order the
resource-allocation pass scans them. -/
def portClaims (s : ScenarioDoc) : List (String × String × SPort) :=
  s.hosts.flatMap (hostClaims s.services)

/-- The `(external, protocol)` key of a claim, when its port declares an
external mapping. -/
def claimKey (c : String × String × SPort) : Option (Int × String) :=
  match c.2.2.external with
  | some e => some (e, pyLower (strOr c.2.2.protocol "tcp"))
  | none => none

/-- The owner string recorded in the usage map (`f"{hid}:{svc_id}"`). -/
def claimOwner (c : String × String × SPort) : String := c.1 ++ ":" ++ c.2.1

/-- How many scanned claims carry the key `k`. -/
def countKey (claims : List (String × String × SPort)) (k : Int × String) : Nat :=
  claims.countP (fun c => claimKey c == some k)

lemma countKey_append (claims : List (String × String × SPort))
    (c : String × String × SPort) (k : Int × String) :
    countKey (claims ++ [c]) k
      = countKey claims k + (if claimKey c == some k then 1 else 0) := by
  unfold countKey
  rw [List.countP_append]
  simp [List.countP_cons]

lemma countKey_pos_iff (claims : List (String × String × SPort))
    (k : Int × String) :
    1 ≤ countKey claims k
      ↔ (claims.find? (fun c => claimKey c == some k)).isSome = true := by
  unfold countKey
  rw [List.find?_isSome]
  exact List.countP_pos_iff

/-- The invariant tying the allocation scan's usage map and error list to
the claims scanned so far: the map holds the first owner of each key;
a conflict message for key `k` is present exactly when `k` was claimed
at least twice (stated as two implications). -/
def portInv (usage : List ((Int × String) × String)) (errs : List String)
    (claims : List (String × String × SPort)) : Prop :=
  (∀ k : Int × String, portLookup usage k
      = ((claims.find? (fun c => claimKey c == some k)).map claimOwner))
  ∧ (∀ k : Int × String, 2 ≤ countKey claims k →
      ∃ c0 h sv, claims.find? (fun c => claimKey c == some k) = some c0
        ∧ portConflictMsg k.2 k.1 (claimOwner c0) h sv ∈ errs)
  ∧ (∀ p : String, ∀ e : Int, ∀ pr h sv : String,
      portConflictMsg p e pr h sv ∈ errs → ∃ k, 2 ≤ countKey claims k)

lemma or_some_left {α : Type} (a : α) (o : Option α) : (some a).or o = some a := rfl

/-- Scanning one port preserves the usage/error invariant. -/
lemma stepPort_inv (hid svcId : String) (st : AllocState × List PortAlloc)
    (p : SPort) (claims : List (String × String × SPort))
    (hinv : portInv st.1.usage st.1.errs claims) :
    portInv (stepPort hid svcId st p).1.usage (stepPort hid svcId st p).1.errs
      (claims ++ [(hid, svcId, p)]) := by
  obtain ⟨s, ports⟩ := st
  obtain ⟨h1, h2, h3⟩ := hinv
  cases hext : p.external with
  | none =>
      have hstep : (stepPort hid svcId (s, ports) p).1 = s := by
        unfold stepPort
        dsimp only
        rw [hext]
      rw [hstep]
      have hckn : claimKey (hid, svcId, p) = none := by
        unfold claimKey
        dsimp only
        rw [hext]
      refine ⟨?_, ?_, ?_⟩
      · intro k
        rw [List.find?_append]
        have hnone : List.find? (fun c => claimKey c == some k) [(hid, svcId, p)]
            = none := by
          simp [List.find?_cons, hckn]
        rw [hnone, Option.or_none]
        exact h1 k
      · intro k hk
        rw [countKey_append, hckn] at hk
        have hf : ((none : Option (Int × String)) == some k) = false := rfl
        rw [hf] at hk
        simp only [Bool.false_eq_true, if_false] at hk
        obtain ⟨c0, hh, sv, hfind, hm⟩ := h2 k (by omega)
        exact ⟨c0, hh, sv, by rw [List.find?_append, hfind, or_some_left], hm⟩
      · intro pp e pr hh sv hm
        obtain ⟨k, hk⟩ := h3 pp e pr hh sv hm
        refine ⟨k, ?_⟩
        rw [countKey_append]
        omega
  | some e =>
      have hcks : claimKey (hid, svcId, p)
          = some (e, pyLower (strOr p.protocol "tcp")) := by
        unfold claimKey
        dsimp only
        rw [hext]
      cases hlk : portLookup s.usage (e, pyLower (strOr p.protocol "tcp")) with
      | some prev =>
          have hstep : (stepPort hid svcId (s, ports) p).1
              = { s with errs := s.errs ++ [portConflictMsg
                  (pyLower (strOr p.protocol "tcp")) e prev hid svcId] } := by
            unfold stepPort
            dsimp only
            rw [hext]
            dsimp only
            rw [hlk]
          rw [hstep]
          dsimp only
          have hfindsome : ∃ c0, List.find? (fun c => claimKey c == some
              (e, pyLower (strOr p.protocol "tcp"))) claims = some c0 := by
            have h1k := h1 (e, pyLower (strOr p.protocol "tcp"))
            rw [hlk] at h1k
            cases hf : List.find? (fun c => claimKey c == some
                (e, pyLower (strOr p.protocol "tcp"))) claims with
            | none => rw [hf] at h1k; simp at h1k
            | some c0 => exact ⟨c0, rfl⟩
          refine ⟨?_, ?_, ?_⟩
          · intro k
            rw [List.find?_append]
            by_cases hkk : k = (e, pyLower (strOr p.protocol "tcp"))
            · subst hkk
              obtain ⟨c0, hf⟩ := hfindsome
              rw [hf, or_some_left, ← hf]
              exact h1 _
            · have hnone : List.find? (fun c => claimKey c == some k)
                  [(hid, svcId, p)] = none := by
                simp only [List.find?_cons]
                rw [hcks]
                have : ((some (e, pyLower (strOr p.protocol "tcp")) : Option (Int × String))
                    == some k) = false := by
                  simp
                  exact fun hc => hkk hc.symm
                rw [this]
                rfl
              rw [hnone, Option.or_none]
              exact h1 k
          · intro k hk
            by_cases hkk : k = (e, pyLower (strOr p.protocol "tcp"))
            · subst hkk
              obtain ⟨c0, hf⟩ := hfindsome
              have hprev : prev = claimOwner c0 := by
                have h1k := h1 (e, pyLower (strOr p.protocol "tcp"))
                rw [hlk, hf] at h1k
                simpa using h1k
              refine ⟨c0, hid, svcId, ?_, ?_⟩
              · rw [List.find?_append, hf, or_some_left]
              · rw [← hprev]
                simp
            · rw [countKey_append, hcks] at hk
              have hzero : ((some (e, pyLower (strOr p.protocol "tcp")) :
                  Option (Int × String)) == some k) = false := by
                simp
                exact fun hc => hkk hc.symm
              rw [hzero] at hk
              simp only [Bool.false_eq_true, if_false] at hk
              obtain ⟨c0, hh, sv, hfind, hmem⟩ := h2 k (by omega)
              refine ⟨c0, hh, sv, ?_, by simp [hmem]⟩
              rw [List.find?_append, hfind, or_some_left]
          · intro pp ee pr hh sv hm
            rcases List.mem_append.mp hm with hold | hnew
            · obtain ⟨k, hk⟩ := h3 pp ee pr hh sv hold
              refine ⟨k, ?_⟩
              rw [countKey_append]
              omega
            · refine ⟨(e, pyLower (strOr p.protocol "tcp")), ?_⟩
              rw [countKey_append, hcks]
              have hone : 1 ≤ countKey claims (e, pyLower (strOr p.protocol "tcp")) := by
                rw [countKey_pos_iff]
                obtain ⟨c0, hf⟩ := hfindsome
                rw [hf]
                rfl
              simp only [beq_self_eq_true, if_true]
              omega
      | none =>
          have hstep : (stepPort hid svcId (s, ports) p).1
              = { s with usage := s.usage
                  ++ [((e, pyLower (strOr p.protocol "tcp")), hid ++ ":" ++ svcId)] } := by
            unfold stepPort
            dsimp only
            rw [hext]
            dsimp only
            rw [hlk]
          rw [hstep]
          dsimp only
          have hfindnone : List.find? (fun c => claimKey c == some
              (e, pyLower (strOr p.protocol "tcp"))) claims = none := by
            have h1k := h1 (e, pyLower (strOr p.protocol "tcp"))
            rw [hlk] at h1k
            cases hf : List.find? (fun c => claimKey c == some
                (e, pyLower (strOr p.protocol "tcp"))) claims with
            | none => rfl
            | some c0 => rw [hf] at h1k; simp at h1k
          have husagenone : s.usage.find? (fun q => q.1 ==
              (e, pyLower (strOr p.protocol "tcp"))) = none := by
            have hl := hlk
            unfold portLookup at hl
            cases hf : s.usage.find? (fun q => q.1 ==
                (e, pyLower (strOr p.protocol "tcp"))) with
            | none => rfl
            | some q => rw [hf] at hl; simp at hl
          refine ⟨?_, ?_, ?_⟩
          · intro k
            unfold portLookup
            rw [List.find?_append, List.find?_append]
            by_cases hkk : k = (e, pyLower (strOr p.protocol "tcp"))
            · subst hkk
              rw [husagenone, hfindnone, Option.none_or, Option.none_or]
              have hpair : List.find? (fun q => q.1 ==
                  (e, pyLower (strOr p.protocol "tcp")))
                  [((e, pyLower (strOr p.protocol "tcp")), hid ++ ":" ++ svcId)]
                    = some ((e, pyLower (strOr p.protocol "tcp")),
                        hid ++ ":" ++ svcId) := by
                simp [List.find?_cons]
              have hcl : List.find? (fun c => claimKey c == some
                  (e, pyLower (strOr p.protocol "tcp")))
                  [(hid, svcId, p)] = some (hid, svcId, p) := by
                simp [List.find?_cons, hcks]
              rw [hpair, hcl]
              rfl
            · have hpair : List.find? (fun q => q.1 == k)
                  [((e, pyLower (strOr p.protocol "tcp")), hid ++ ":" ++ svcId)]
                    = none := by
                simp only [List.find?_cons]
                have : (((e, pyLower (strOr p.protocol "tcp")), hid ++ ":" ++ svcId).1
                    == k) = false := by
                  simp
                  exact fun hc => hkk hc.symm
                rw [this]
                rfl
              have hcl : List.find? (fun c => claimKey c == some k)
                  [(hid, svcId, p)] = none := by
                simp only [List.find?_cons]
                rw [hcks]
                have : ((some (e, pyLower (strOr p.protocol "tcp")) :
                    Option (Int × String)) == some k) = false := by
                  simp
                  exact fun hc => hkk hc.symm
                rw [this]
                rfl
              rw [hpair, hcl, Option.or_none, Option.or_none]
              exact h1 k
          · intro k hk
            by_cases hkk : k = (e, pyLower (strOr p.protocol "tcp"))
            · subst hkk
              rw [countKey_append, hcks] at hk
              simp only [beq_self_eq_true, if_true] at hk
              have hone : 1 ≤ countKey claims
                  (e, pyLower (strOr p.protocol "tcp")) := by omega
              rw [countKey_pos_iff, hfindnone] at hone
              simp at hone
            · rw [countKey_append, hcks] at hk
              have hzero : ((some (e, pyLower (strOr p.protocol "tcp")) :
                  Option (Int × String)) == some k) = false := by
                simp
                exact fun hc => hkk hc.symm
              rw [hzero] at hk
              simp only [Bool.false_eq_true, if_false] at hk
              obtain ⟨c0, hh, sv, hfind, hmem⟩ := h2 k (by omega)
              exact ⟨c0, hh, sv, by rw [List.find?_append, hfind, or_some_left], hmem⟩
          · intro pp ee pr hh sv hm
            obtain ⟨k, hk⟩ := h3 pp ee pr hh sv hm
            refine ⟨k, ?_⟩
            rw [countKey_append]
            omega

/-- Folding all ports of one service preserves the invariant. -/
lemma foldPorts_inv (hid svcId : String) (ps : List SPort) :
    ∀ (st : AllocState × List PortAlloc) (claims : List (String × String × SPort)),
      portInv st.1.usage st.1.errs claims →
      portInv (ps.foldl (stepPort hid svcId) st).1.usage
        (ps.foldl (stepPort hid svcId) st).1.errs
        (claims ++ ps.map (fun p => (hid, svcId, p))) := by
  induction ps with
  | nil => intro st claims hinv; simpa using hinv
  | cons p ps ih =>
      intro st claims hinv
      have h2 := ih (stepPort hid svcId st p) (claims ++ [(hid, svcId, p)])
        (stepPort_inv hid svcId st p claims hinv)
      simpa using h2

/-- Processing one service reference preserves the invariant, extending
the claims by that service's claims; an undefined-service error (head
`H`) can never collide with a conflict message (head `E`). -/
lemma stepService_inv (services : List Service) (hid : String)
    (st : AllocState × List PortAlloc) (svcId : String)
    (claims : List (String × String × SPort))
    (hinv : portInv st.1.usage st.1.errs claims) :
    portInv (stepService services hid st svcId).1.usage
      (stepService services hid st svcId).1.errs
      (claims ++ svcClaims services hid svcId) := by
  unfold stepService svcClaims
  cases hlk : svcLookup services svcId with
  | some svc =>
      dsimp only
      exact foldPorts_inv hid svcId svc.ports st claims hinv
  | none =>
      dsimp only
      obtain ⟨h1, h2, h3⟩ := hinv
      refine ⟨?_, ?_, ?_⟩
      · intro k
        simpa using h1 k
      · intro k hk
        obtain ⟨c0, hh, sv, hfind, hm⟩ := h2 k (by simpa using hk)
        exact ⟨c0, hh, sv, by simpa using hfind, by simp [hm]⟩
      · intro pp e pr hh sv hm
        rcases List.mem_append.mp hm with hold | hnew
        · obtain ⟨k, hk⟩ := h3 pp e pr hh sv hold
          exact ⟨k, by simpa using hk⟩
        · exfalso
          have hmsg := List.mem_singleton.mp hnew
          have hE := portConflictMsg_head pp e pr hh sv
          have hH : (("Host '" : String)).data ≠ [] := by decide
          have hHd := strHead_chain4 "Host '" hid
            "' references undefined service '" svcId "'" hH
          rw [hmsg, hHd] at hE
          exact absurd hE (by decide)

/-- Folding all service references of a host preserves the invariant. -/
lemma foldServices_inv (services : List Service) (hid : String)
    (svcIds : List String) :
    ∀ (st : AllocState × List PortAlloc) (claims : List (String × String × SPort)),
      portInv st.1.usage st.1.errs claims →
      portInv (svcIds.foldl (stepService services hid) st).1.usage
        (svcIds.foldl (stepService services hid) st).1.errs
        (claims ++ svcIds.flatMap (svcClaims services hid)) := by
  induction svcIds with
  | nil => intro st claims hinv; simpa using hinv
  | cons svcId rest ih =>
      intro st claims hinv
      have h2 := ih (stepService services hid st svcId)
        (claims ++ svcClaims services hid svcId)
        (stepService_inv services hid st svcId claims hinv)
      simpa [List.append_assoc] using h2

/-- Processing one host preserves the invariant (the warnings/allocation
updates leave `usage` and `errs` untouched). -/
lemma stepHostAlloc_inv (services : List Service) (s : AllocState) (h : Host)
    (claims : List (String × String × SPort))
    (hinv : portInv s.usage s.errs claims) :
    portInv (stepHostAlloc services s h).usage (stepHostAlloc services s h).errs
      (claims ++ hostClaims services h) := by
  unfold stepHostAlloc hostClaims
  cases hhid : h.id with
  | none =>
      dsimp only
      simpa using hinv
  | some hid =>
      cases htr : strTruthy (some hid) with
      | false =>
          dsimp only
          simpa using hinv
      | true =>
          dsimp only
          exact foldServices_inv services hid h.services (s, []) claims hinv

/-- The resource-allocation pass satisfies the port invariant over the
scenario's full claim list. -/
lemma resourceAllocation_inv (hosts : List Host) (services : List Service) :
    portInv (resourceAllocation hosts services).usage
      (resourceAllocation hosts services).errs
      (hosts.flatMap (hostClaims services)) := by
  have hbase : portInv ([] : List ((Int × String) × String)) [] [] := by
    refine ⟨fun k => rfl, ?_, ?_⟩
    · intro k hk
      have h0 : countKey ([] : List (String × String × SPort)) k = 0 := rfl
      rw [h0] at hk
      exact absurd hk (by decide)
    · intro pp e pr hh sv hm
      simp at hm
  have hfold : ∀ (hs : List Host) (st : AllocState)
      (claims : List (String × String × SPort)),
      portInv st.usage st.errs claims →
      portInv (hs.foldl (stepHostAlloc services) st).usage
        (hs.foldl (stepHostAlloc services) st).errs
        (claims ++ hs.flatMap (hostClaims services)) := by
    intro hs
    induction hs with
    | nil => intro st claims hinv; simpa using hinv
    | cons h rest ih =>
        intro st claims hinv
        have h2 := ih (stepHostAlloc services st h)
          (claims ++ hostClaims services h)
          (stepHostAlloc_inv services st h claims hinv)
        simpa [List.append_assoc] using h2
  have hmain := hfold hosts ⟨[], [], [], []⟩ [] hbase
  simpa [resourceAllocation] using hmain

/-- ScenarioDoc with a genuine external-port conflict: hosts `host_a`
and `host_b` both reference service `svc_web`, whose single port maps
external 8080 with no protocol (defaulting to tcp). -/
def dupPortInput : ScenarioDoc :=
  ⟨[], [mkHost "host_a" "web" [] [] ["svc_web"] none,
        mkHost "host_b" "web" [] [] ["svc_web"] none],
   [⟨some "svc_web", [⟨some 80, some 8080, none⟩]⟩], [], []⟩

/-- C8: for every scenario, whenever some `(external, protocol)` key is
claimed by at least two host/service port claims, `plan_scenario` reports
an `External port conflict: protocol/external` error naming the first
owner of that key (the prior owner); conversely, a port-conflict-shaped
error is only reported when some key really is claimed at least twice
(so a scenario without duplicate keys gets no port-conflict error). -/
theorem port_conflict_detection ( s : ScenarioDoc) :
    (∀ k : Int × String, 2 ≤ countKey (portClaims s) k →
      ∃ c0 h sv, (portClaims s).find? (fun c => claimKey c == some k) = some c0
        ∧ portConflictMsg k.2 k.1 (claimOwner c0) h sv ∈ (planScenarioDoc s).errors)
    ∧ (∀ p : String, ∀ e : Int, ∀ pr h sv : String,
        portConflictMsg p e pr h sv ∈ (planScenarioDoc s).errors →
        ∃ k : Int × String, 2 ≤ countKey (portClaims s) k) := by
  unfold portClaims
  obtain ⟨h1, h2, h3⟩ := resourceAllocation_inv s.hosts s.services
  have herr : (planScenarioDoc s).errors
      = (buildNetworks s.networks).2.2
        ++ (populateTopology s.networks s.hosts (buildNetworks s.networks).1
              (buildNetworks s.networks).2.1).2.2
        ++ (resourceAllocation s.hosts s.services).errs
        ++ (buildDeps s.hosts (hostIdsOf s.hosts)).2.2
        ++ (if cycleDetected s then ["Cycle detected in host dependencies"]
            else []) := rfl
  constructor
  · intro k hk
    obtain ⟨c0, hh, sv, hfind, hm⟩ := h2 k hk
    refine ⟨c0, hh, sv, hfind, ?_⟩
    rw [herr]
    simp only [List.mem_append]
    exact Or.inl (Or.inl (Or.inr hm))
  · intro pp e pr hh sv hm
    rw [herr] at hm
    have hE := portConflictMsg_head pp e pr hh sv
    simp only [List.mem_append] at hm
    rcases hm with ((((hN | hHI) | hA) | hD) | hC)
    · have hmsg := buildNetworks_errs s.networks _ hN
      rw [hmsg] at hE
      exact absurd hE (by decide)
    · rcases populateTopology_errs s.networks s.hosts _ _ _ hHI with hHd | hId
      · rw [hE] at hHd
        exact absurd hHd (by decide)
      · rw [hE] at hId
        exact absurd hId (by decide)
    · exact h3 pp e pr hh sv hA
    · have hHd := buildDeps_errs s.hosts (hostIdsOf s.hosts) _ hD
      rw [hE] at hHd
      exact absurd hHd (by decide)
    · by_cases hcyc : cycleDetected s = true
      · rw [if_pos hcyc] at hC
        have hmsg := List.mem_singleton.mp hC
        rw [hmsg] at hE
        exact absurd hE (by decide)
      · rw [if_neg hcyc] at hC
        simp at hC

/-- C8 witness: in `dupPortInput` the key (8080, tcp) is claimed twice,
and applying the theorem yields the conflict error naming the first
owner. -/
theorem port_conflict_detection_witness :
    2 ≤ countKey (portClaims dupPortInput) ((8080 : Int), "tcp")
    ∧ ∃ c0 h sv,
        (portClaims dupPortInput).find?
          (fun c => claimKey c == some ((8080 : Int), "tcp")) = some c0
        ∧ portConflictMsg "tcp" 8080 (claimOwner c0) h sv
            ∈ (planScenarioDoc dupPortInput).errors :=
  ⟨by decide, (port_conflict_detection dupPortInput).1 ((8080 : Int), "tcp") (by decide)⟩

end CyberRange
